import Mathlib

/-!
Verification development for the TCP relay core (`shadowsocks/tcprelay.py`).

The Python source is shallowly embedded as executable Lean definitions:

* `SweepState` models the timeout structures owned by `TCPRelay`
  (`_timeouts`, `_handler_to_timeouts`, `_timeout_offset`, per-handler
  `last_activity`, `_timeout`), together with the operations
  `remove_handler`, `update_activity` and `_sweep_timeout`.
  Handlers are identified by their hash (a `Nat`); `hash(handler)` in the
  Python source is injective by design (`__hash__` returns `id(self)`).
  Dictionary values of `_handler_to_timeouts` are Python ints, embedded as
  `Int`; `dict.get(k, -1)` becomes `(h2t k).getD (-1)`.  Wall-clock values
  produced by `time.time()` (floats) are embedded as `ℚ`; values produced
  by `int(time.time())` as `Int`.

* `World` models one `TCPRelayHandler` together with the parts of the
  server it touches: the poller registration map, `_fd_to_handlers`, the
  timeout structures, and observation logs for `close`, `send` and
  `connect` calls.  Sockets are identified by their file descriptors.

External collaborators (cipher, header parser, resolver) are parameters
(`Ext`), and per-event OS outcomes (recv/send results, fresh fds, the
clock) are parameters (`Env`), so every definition stays executable.
-/

namespace Tcprelay

open List

def TIMEOUTS_CLEAN_SIZE : Nat := 512

def TIMEOUT_PRECISION : Int := 4

def CMD_CONNECT : Nat := 1

def CMD_BIND : Nat := 2

def CMD_UDP_ASSOCIATE : Nat := 3

def STAGE_INIT : Nat := 0

def STAGE_HELLO : Nat := 1

def STAGE_UDP_ASSOC : Nat := 2

def STAGE_REPLY : Nat := 4

def STAGE_STREAM : Nat := 5

def STREAM_UP : Nat := 0

def STREAM_DOWN : Nat := 1

def WAIT_STATUS_INIT : Nat := 0

def WAIT_STATUS_READING : Nat := 1

def WAIT_STATUS_WRITING : Nat := 2

def WAIT_STATUS_READWRITING : Nat := 3

/-- Modelled from the spec: the readiness poller (`eventloop` module, not
under `src/`) exposes read/write/error interest bits.  The concrete values
are irrelevant to every claim; we fix three distinct bits. -/
def POLL_IN : Nat := 1

def POLL_OUT : Nat := 4

def POLL_ERR : Nat := 8

def EAGAIN : Nat := 11

def EINPROGRESS : Nat := 115

/-- The timeout structures of `TCPRelay` (`tcprelay.py` lines 375-381)
plus the `last_activity` field of every handler (line 94), keyed by
handler hash. -/
structure SweepState where
  timeouts : List (Option Nat)
  h2t : Nat → Option Int
  offset : Nat
  acts : Nat → Int
  timeout : Int

/-- `TCPRelay.remove_handler` (`tcprelay.py` lines 412-417). -/
def remove_handler (s : SweepState) (h : Nat) : SweepState :=
  let index := (s.h2t h).getD (-1)
  if 0 ≤ index then
    { s with timeouts := s.timeouts.set index.toNat none,
             h2t := fun k => if k = h then none else s.h2t k }
  else s

/-- `TCPRelay.update_activity` (`tcprelay.py` lines 419-432); `now` is
`int(time.time())`. -/
def update_activity (s : SweepState) (h : Nat) (now : Int) : SweepState :=
  if now - s.acts h < TIMEOUT_PRECISION then s
  else
    let acts' := fun k => if k = h then now else s.acts k
    let index := (s.h2t h).getD (-1)
    let t1 := if 0 ≤ index then s.timeouts.set index.toNat none else s.timeouts
    { s with acts := acts',
             timeouts := t1 ++ [some h],
             h2t := fun k => if k = h then some (t1.length : Int) else s.h2t k }

/-- The `while pos < length` loop of `TCPRelay._sweep_timeout`
(`tcprelay.py` lines 441-457).  `handler.destroy()` acts on the timeout
structures exactly as `remove_handler` does (its socket side effects live
in the `World` model). -/
def sweepLoop (now : ℚ) (length : Nat) (s : SweepState) (pos : Nat) :
    SweepState × Nat :=
  if _h : pos < length then
    match s.timeouts.getD pos none with
    | some hid =>
      if now - (s.acts hid : ℚ) < (s.timeout : ℚ) then (s, pos)
      else
        let s1 := remove_handler s hid
        sweepLoop now length { s1 with timeouts := s1.timeouts.set pos none }
          (pos + 1)
    | none => sweepLoop now length s (pos + 1)
  else (s, pos)
termination_by length - pos

/-- `TCPRelay._sweep_timeout` (`tcprelay.py` lines 434-465); `now` is
`time.time()`.  `length >> 1` is written `length / 2`. -/
def sweep_timeout (s : SweepState) (now : ℚ) : SweepState :=
  if s.timeouts.isEmpty then s
  else
    let length := s.timeouts.length
    let r := sweepLoop now length s s.offset
    if TIMEOUTS_CLEAN_SIZE < r.2 ∧ length / 2 < r.2 then
      { r.1 with timeouts := r.1.timeouts.drop r.2,
                 h2t := fun k => (r.1.h2t k).map (fun i => i - (r.2 : Int)),
                 offset := 0 }
    else { r.1 with offset := r.2 }

/-- Timeout-index coherence invariant: every stored index points at a
non-tombstone slot holding its own handler; every non-tombstone slot is
the stored index of its handler (uniqueness); every slot before the
cursor is a tombstone; the cursor is in range. -/
def Inv (s : SweepState) : Prop :=
  (∀ k i, s.h2t k = some i →
      0 ≤ i ∧ i.toNat < s.timeouts.length ∧
        s.timeouts.getD i.toNat none = some k) ∧
  (∀ q k, s.timeouts.getD q none = some k → s.h2t k = some (q : Int)) ∧
  (∀ q, q < s.offset → s.timeouts.getD q none = none) ∧
  s.offset ≤ s.timeouts.length

/-- The `last_activity` values of the non-tombstone entries of
`_timeouts`, in order. -/
def actSeq (s : SweepState) : List Int :=
  (s.timeouts.filterMap id).map s.acts

/-! Basic facts about `List.getD` on tombstone lists. -/

lemma getD_set_none (l : List (Option Nat)) (i j : Nat) :
    (l.set i none).getD j none = if i = j then none else l.getD j none := by
  simp only [List.getD_eq_getElem?_getD, List.getElem?_set]
  by_cases h : i = j
  · simp [h]
    split <;> simp
  · simp [h]

lemma getD_append_lt (l₁ l₂ : List (Option Nat)) (q : Nat) (h : q < l₁.length) :
    (l₁ ++ l₂).getD q none = l₁.getD q none := by
  simp [List.getD_eq_getElem?_getD, List.getElem?_append, h]

lemma getD_concat_length (l : List (Option Nat)) (a : Option Nat) :
    (l ++ [a]).getD l.length none = a := by
  simp [List.getD_eq_getElem?_getD, List.getElem?_concat_length]

lemma getD_of_le (l : List (Option Nat)) (q : Nat) (h : l.length ≤ q) :
    l.getD q none = none := by
  simp [List.getD_eq_getElem?_getD, List.getElem?_eq_none h]

lemma getD_eq_of_mem_getElem? (l : List (Option Nat)) (q : Nat) (a : Nat)
    (h : l[q]? = some (some a)) : l.getD q none = some a := by
  simp [List.getD_eq_getElem?_getD, h]

lemma mem_of_getD_eq_some {l : List (Option Nat)} {q : Nat} {a : Nat}
    (h : l.getD q none = some a) : l[q]? = some (some a) := by
  simp only [List.getD_eq_getElem?_getD] at h
  cases hq : l[q]? with
  | none => rw [hq] at h; simp at h
  | some o => rw [hq] at h; simp at h; rw [h]

/-! Unfolding lemmas for the timeout-queue operations. -/

lemma remove_handler_none {s : SweepState} {h : Nat} (hk : s.h2t h = none) :
    remove_handler s h = s := by
  simp [remove_handler, hk]

lemma remove_handler_some {s : SweepState} {h : Nat} {i : Int}
    (hk : s.h2t h = some i) (h0 : 0 ≤ i) :
    remove_handler s h =
      { s with timeouts := s.timeouts.set i.toNat none,
               h2t := fun k => if k = h then none else s.h2t k } := by
  simp [remove_handler, hk, h0]

lemma remove_handler_neg {s : SweepState} {h : Nat} {i : Int}
    (hk : s.h2t h = some i) (h0 : ¬ 0 ≤ i) :
    remove_handler s h = s := by
  simp [remove_handler, hk, h0]

lemma update_activity_skip {s : SweepState} {h : Nat} {now : Int}
    (hlt : now - s.acts h < TIMEOUT_PRECISION) :
    update_activity s h now = s := by
  simp [update_activity, hlt]

lemma update_activity_some {s : SweepState} {h : Nat} {now : Int} {i : Int}
    (hge : ¬ now - s.acts h < TIMEOUT_PRECISION)
    (hk : s.h2t h = some i) (h0 : 0 ≤ i) :
    update_activity s h now =
      { s with acts := fun k => if k = h then now else s.acts k,
               timeouts := s.timeouts.set i.toNat none ++ [some h],
               h2t := fun k =>
                 if k = h then some (s.timeouts.length : Int) else s.h2t k } := by
  simp [update_activity, hge, hk, h0]

lemma update_activity_none {s : SweepState} {h : Nat} {now : Int}
    (hge : ¬ now - s.acts h < TIMEOUT_PRECISION) (hk : s.h2t h = none) :
    update_activity s h now =
      { s with acts := fun k => if k = h then now else s.acts k,
               timeouts := s.timeouts ++ [some h],
               h2t := fun k =>
                 if k = h then some (s.timeouts.length : Int) else s.h2t k } := by
  simp [update_activity, hge, hk]

/-! Invariant preservation for `remove_handler` and `update_activity`. -/

lemma inv_remove_handler {s : SweepState} (hs : Inv s) (h : Nat) :
    Inv (remove_handler s h) := by
  obtain ⟨ha, hb, hc, hd⟩ := hs
  cases hk : s.h2t h with
  | none => rw [remove_handler_none hk]; exact ⟨ha, hb, hc, hd⟩
  | some i =>
    have h0 : 0 ≤ i := (ha h i hk).1
    rw [remove_handler_some hk h0]
    refine ⟨?_, ?_, ?_, ?_⟩
    · intro k j hkj
      dsimp only at hkj ⊢
      by_cases hkh : k = h
      · simp [hkh] at hkj
      · rw [if_neg hkh] at hkj
        obtain ⟨hj0, hjlen, hjget⟩ := ha k j hkj
        refine ⟨hj0, by simpa using hjlen, ?_⟩
        have hih := (ha h i hk).2.2
        have hne : i.toNat ≠ j.toNat := by
          intro he
          rw [he, hjget] at hih
          injection hih with h'
          exact hkh h'
        rw [getD_set_none, if_neg hne]
        exact hjget
    · intro q k hq
      dsimp only at hq ⊢
      rw [getD_set_none] at hq
      by_cases hiq : i.toNat = q
      · rw [if_pos hiq] at hq; exact absurd hq (by simp)
      · rw [if_neg hiq] at hq
        have hk' := hb q k hq
        have hkh : k ≠ h := by
          intro he
          rw [he, hk] at hk'
          injection hk' with h'
          exact hiq (by omega)
        rw [if_neg hkh]
        exact hk'
    · intro q hq
      dsimp only at hq ⊢
      rw [getD_set_none]
      by_cases hiq : i.toNat = q
      · rw [if_pos hiq]
      · rw [if_neg hiq]; exact hc q hq
    · dsimp only; simpa using hd

lemma inv_update_activity {s : SweepState} (hs : Inv s) (h : Nat) (now : Int) :
    Inv (update_activity s h now) := by
  obtain ⟨ha, hb, hc, hd⟩ := hs
  by_cases hlt : now - s.acts h < TIMEOUT_PRECISION
  · rw [update_activity_skip hlt]; exact ⟨ha, hb, hc, hd⟩
  cases hk : s.h2t h with
  | some i =>
    have h0 : 0 ≤ i := (ha h i hk).1
    rw [update_activity_some hlt hk h0]
    have hlen : (s.timeouts.set i.toNat none ++ [some h]).length =
        s.timeouts.length + 1 := by simp
    refine ⟨?_, ?_, ?_, ?_⟩
    · intro k j hkj
      dsimp only at hkj ⊢
      by_cases hkh : k = h
      · rw [if_pos hkh] at hkj
        injection hkj with hj
        subst hj
        refine ⟨by positivity, by simp [hlen], ?_⟩
        have : (s.timeouts.length : Int).toNat = (s.timeouts.set i.toNat none).length := by
          simp
        rw [this, getD_concat_length]
        rw [hkh]
      · rw [if_neg hkh] at hkj
        obtain ⟨hj0, hjlen, hjget⟩ := ha k j hkj
        refine ⟨hj0, by omega, ?_⟩
        rw [getD_append_lt _ _ _ (by simpa using hjlen), getD_set_none]
        have hih := (ha h i hk).2.2
        have hne : i.toNat ≠ j.toNat := by
          intro he
          rw [he, hjget] at hih
          injection hih with h'
          exact hkh h'
        rw [if_neg hne]
        exact hjget
    · intro q k hq
      dsimp only at hq ⊢
      rcases Nat.lt_trichotomy q s.timeouts.length with hql | hql | hql
      · rw [getD_append_lt _ _ _ (by simpa using hql), getD_set_none] at hq
        by_cases hiq : i.toNat = q
        · rw [if_pos hiq] at hq; exact absurd hq (by simp)
        · rw [if_neg hiq] at hq
          have hk' := hb q k hq
          have hkh : k ≠ h := by
            intro he
            rw [he, hk] at hk'
            injection hk' with h'
            exact hiq (by omega)
          rw [if_neg hkh]
          exact hk'
      · subst hql
        have : (s.timeouts.set i.toNat none).length = s.timeouts.length := by simp
        rw [← this, getD_concat_length] at hq
        injection hq with hq
        subst hq
        rw [if_pos rfl]
      · rw [getD_of_le _ _ (by simp; omega)] at hq
        exact absurd hq (by simp)
    · intro q hq
      dsimp only at hq ⊢
      have hql : q < s.timeouts.length := lt_of_lt_of_le hq hd
      rw [getD_append_lt _ _ _ (by simpa using hql), getD_set_none]
      by_cases hiq : i.toNat = q
      · rw [if_pos hiq]
      · rw [if_neg hiq]; exact hc q hq
    · dsimp only
      rw [hlen]
      omega
  | none =>
    rw [update_activity_none hlt hk]
    refine ⟨?_, ?_, ?_, ?_⟩
    · intro k j hkj
      dsimp only at hkj ⊢
      by_cases hkh : k = h
      · rw [if_pos hkh] at hkj
        injection hkj with hj
        subst hj
        refine ⟨by positivity, by simp, ?_⟩
        rw [show (s.timeouts.length : Int).toNat = s.timeouts.length by simp,
          getD_concat_length, hkh]
      · rw [if_neg hkh] at hkj
        obtain ⟨hj0, hjlen, hjget⟩ := ha k j hkj
        refine ⟨hj0, by simp; omega, ?_⟩
        rw [getD_append_lt _ _ _ hjlen]
        exact hjget
    · intro q k hq
      dsimp only at hq ⊢
      rcases Nat.lt_trichotomy q s.timeouts.length with hql | hql | hql
      · rw [getD_append_lt _ _ _ hql] at hq
        have hk' := hb q k hq
        have hkh : k ≠ h := by
          intro he
          rw [he, hk] at hk'
          exact absurd hk' (by simp)
        rw [if_neg hkh]
        exact hk'
      · subst hql
        rw [getD_concat_length] at hq
        injection hq with hq
        subst hq
        rw [if_pos rfl]
      · rw [getD_of_le _ _ (by simp; omega)] at hq
        exact absurd hq (by simp)
    · intro q hq
      dsimp only at hq ⊢
      have hql : q < s.timeouts.length := lt_of_lt_of_le hq hd
      rw [getD_append_lt _ _ _ hql]
      exact hc q hq
    · dsimp only
      simp
      omega

/-! Monotone-activity machinery. -/

lemma filterMap_id_set_none_sublist (l : List (Option Nat)) (i : Nat) :
    ((l.set i none).filterMap id) <+ (l.filterMap id) := by
  induction l generalizing i with
  | nil => simp
  | cons a t ih =>
    cases i with
    | zero =>
      cases a with
      | none => simp [List.set]
      | some x =>
        simp only [List.set, List.filterMap_cons]
        exact List.Sublist.cons x (List.Sublist.refl _)
    | succ n =>
      cases a with
      | none => simpa [List.set, List.filterMap_cons] using ih n
      | some x =>
        simpa [List.set, List.filterMap_cons] using List.Sublist.cons₂ x (ih n)

lemma not_mem_set_stored {s : SweepState} (hs : Inv s) {h : Nat} {i : Int}
    (hk : s.h2t h = some i) :
    h ∉ (s.timeouts.set i.toNat none).filterMap id := by
  obtain ⟨ha, hb, _, _⟩ := hs
  intro hmem
  rw [List.mem_filterMap] at hmem
  obtain ⟨a, hal, haid⟩ := hmem
  simp only [id] at haid
  subst haid
  rw [List.mem_iff_getElem?] at hal
  obtain ⟨q, hq⟩ := hal
  have hqD : (s.timeouts.set i.toNat none).getD q none = some h :=
    getD_eq_of_mem_getElem? _ _ _ hq
  rw [getD_set_none] at hqD
  by_cases hiq : i.toNat = q
  · rw [if_pos hiq] at hqD; exact absurd hqD (by simp)
  · rw [if_neg hiq] at hqD
    have hq' := hb q h hqD
    rw [hk] at hq'
    injection hq' with h'
    have h0 : 0 ≤ i := (ha h i hk).1
    exact hiq (by omega)

lemma not_mem_of_lookup_none {s : SweepState} (hs : Inv s) {h : Nat}
    (hk : s.h2t h = none) : h ∉ s.timeouts.filterMap id := by
  obtain ⟨_, hb, _, _⟩ := hs
  intro hmem
  rw [List.mem_filterMap] at hmem
  obtain ⟨a, hal, haid⟩ := hmem
  simp only [id] at haid
  subst haid
  rw [List.mem_iff_getElem?] at hal
  obtain ⟨q, hq⟩ := hal
  have hqD : s.timeouts.getD q none = some h := getD_eq_of_mem_getElem? _ _ _ hq
  have hq' := hb q h hqD
  rw [hk] at hq'
  exact absurd hq' (by simp)

lemma pairwise_tombstone_append {s : SweepState} (h : Nat) (now : Int)
    (hm : List.Pairwise (· ≤ ·) (actSeq s))
    (hle : ∀ a ∈ actSeq s, a ≤ now)
    (t1 : List (Option Nat))
    (hsub : t1.filterMap id <+ s.timeouts.filterMap id)
    (hnm : h ∉ t1.filterMap id) :
    List.Pairwise (· ≤ ·)
      (((t1 ++ [some h]).filterMap id).map
        (fun k => if k = h then now else s.acts k)) := by
  rw [List.filterMap_append]
  have hsingle : ([some h] : List (Option Nat)).filterMap id = [h] := by
    simp [List.filterMap_cons]
  rw [hsingle, List.map_append]
  have hmape : (t1.filterMap id).map (fun k => if k = h then now else s.acts k) =
      (t1.filterMap id).map s.acts := by
    apply List.map_congr_left
    intro a hat1
    have : a ≠ h := fun he => hnm (he ▸ hat1)
    simp [this]
  rw [hmape]
  have hsubm : (t1.filterMap id).map s.acts <+ actSeq s :=
    List.Sublist.map s.acts hsub
  rw [List.pairwise_append]
  refine ⟨List.Pairwise.sublist hsubm hm, by simp, ?_⟩
  intro a hamem b hbmem
  simp only [List.map_cons, List.map_nil, List.mem_singleton] at hbmem
  have : b = now := by simpa using hbmem
  subst this
  exact hle a (hsubm.subset hamem)

lemma mono_update_activity {s : SweepState} (hs : Inv s) (h : Nat) (now : Int)
    (hm : List.Pairwise (· ≤ ·) (actSeq s))
    (hle : ∀ a ∈ actSeq s, a ≤ now) :
    List.Pairwise (· ≤ ·) (actSeq (update_activity s h now)) := by
  by_cases hlt : now - s.acts h < TIMEOUT_PRECISION
  · rw [update_activity_skip hlt]; exact hm
  cases hk : s.h2t h with
  | some i =>
    have h0 : 0 ≤ i := ((hs.1) h i hk).1
    rw [update_activity_some hlt hk h0]
    exact pairwise_tombstone_append h now hm hle _
      (filterMap_id_set_none_sublist _ _) (not_mem_set_stored hs hk)
  | none =>
    rw [update_activity_none hlt hk]
    exact pairwise_tombstone_append h now hm hle _
      (List.Sublist.refl _) (not_mem_of_lookup_none hs hk)

/-! Characterisation of the sweep loop. -/

lemma getElem?_of_getD_none {l : List (Option Nat)} {q : Nat}
    (hlen : q < l.length) (h : l.getD q none = none) : l[q]? = some none := by
  rw [List.getD_eq_getElem?_getD] at h
  cases hq : l[q]? with
  | none => exact absurd (List.getElem?_eq_none_iff.1 hq) (by omega)
  | some o => rw [hq] at h; simp at h; rw [h]

lemma getD_from_getElem? {l : List (Option Nat)} {q : Nat} {a : Option Nat}
    (h : l[q]? = some a) : l.getD q none = a := by
  simp [List.getD_eq_getElem?_getD, h]

lemma sweepLoop_stop_eq {now : ℚ} {length pos : Nat} {s : SweepState}
    (hpl : ¬ pos < length) : sweepLoop now length s pos = (s, pos) := by
  rw [sweepLoop]
  simp [hpl]

lemma sweepLoop_skip_eq {now : ℚ} {length pos : Nat} {s : SweepState}
    (hpl : pos < length) (he : s.timeouts.getD pos none = none) :
    sweepLoop now length s pos = sweepLoop now length s (pos + 1) := by
  rw [sweepLoop, dif_pos hpl, he]

lemma sweepLoop_fresh_eq {now : ℚ} {length pos : Nat} {s : SweepState} {hid : Nat}
    (hpl : pos < length) (he : s.timeouts.getD pos none = some hid)
    (hfresh : now - (s.acts hid : ℚ) < (s.timeout : ℚ)) :
    sweepLoop now length s pos = (s, pos) := by
  rw [sweepLoop, dif_pos hpl, he]
  exact if_pos hfresh

lemma sweepLoop_destroy_eq {now : ℚ} {length pos : Nat} {s : SweepState} {hid : Nat}
    (hpl : pos < length) (he : s.timeouts.getD pos none = some hid)
    (hstale : ¬ now - (s.acts hid : ℚ) < (s.timeout : ℚ)) :
    sweepLoop now length s pos =
      sweepLoop now length
        { remove_handler s hid with
            timeouts := (remove_handler s hid).timeouts.set pos none }
        (pos + 1) := by
  rw [sweepLoop, dif_pos hpl, he]
  exact if_neg hstale

/-- In the destroy step of the sweep, `handler.destroy()` has already
tombstoned the handler's slot (which under the invariant is the current
position), so the subsequent `self._timeouts[pos] = None` is a no-op. -/
lemma destroy_step_state {s : SweepState} {pos : Nat} {hid : Nat}
    (hs : Inv s) (he : s.timeouts.getD pos none = some hid) :
    { remove_handler s hid with
        timeouts := (remove_handler s hid).timeouts.set pos none } =
      remove_handler s hid := by
  have hk : s.h2t hid = some (pos : Int) := hs.2.1 pos hid he
  have hrw := remove_handler_some hk (by positivity)
  have hto : ((pos : Int)).toNat = pos := Int.toNat_natCast pos
  have hts : (remove_handler s hid).timeouts = s.timeouts.set pos none := by
    rw [hrw]; dsimp only; rw [hto]
  have hset : (remove_handler s hid).timeouts.set pos none =
      (remove_handler s hid).timeouts := by
    rw [hts, List.set_set]
  rw [hset]

/-- What one run of the `while` loop of `_sweep_timeout` guarantees,
relative to the state `s` it started from at cursor `pos`. -/
structure SweepLoopSpec (now : ℚ) (s : SweepState) (pos : Nat)
    (r : SweepState × Nat) : Prop where
  inv : Inv r.1
  posLe : pos ≤ r.2
  leLen : r.2 ≤ s.timeouts.length
  lenEq : r.1.timeouts.length = s.timeouts.length
  offsetEq : r.1.offset = s.offset
  actsEq : r.1.acts = s.acts
  timeoutEq : r.1.timeout = s.timeout
  tomb : ∀ q, q < r.2 → r.1.timeouts[q]? = some none
  frame : ∀ q, r.2 ≤ q → r.1.timeouts[q]? = s.timeouts[q]?
  destroyedNone : ∀ k,
    (∃ q, pos ≤ q ∧ q < r.2 ∧ s.timeouts.getD q none = some k) → r.1.h2t k = none
  keptEq : ∀ k,
    (¬ ∃ q, pos ≤ q ∧ q < r.2 ∧ s.timeouts.getD q none = some k) →
      r.1.h2t k = s.h2t k
  stale : ∀ q k, pos ≤ q → q < r.2 → s.timeouts.getD q none = some k →
    (s.timeout : ℚ) ≤ now - (s.acts k : ℚ)
  stop : r.2 = s.timeouts.length ∨
    ∃ k, s.timeouts.getD r.2 none = some k ∧
      now - (s.acts k : ℚ) < (s.timeout : ℚ)

lemma sweepLoopSpec_self {now : ℚ} {s : SweepState} {pos : Nat}
    (hs : Inv s) (hple : pos ≤ s.timeouts.length)
    (hpre : ∀ q, q < pos → s.timeouts.getD q none = none)
    (hstop : pos = s.timeouts.length ∨
      ∃ k, s.timeouts.getD pos none = some k ∧
        now - (s.acts k : ℚ) < (s.timeout : ℚ)) :
    SweepLoopSpec now s pos (s, pos) where
  inv := hs
  posLe := le_refl _
  leLen := hple
  lenEq := rfl
  offsetEq := rfl
  actsEq := rfl
  timeoutEq := rfl
  tomb := by
    intro q hq
    have hq' : q < pos := hq
    have hql : q < s.timeouts.length := by omega
    exact getElem?_of_getD_none hql (hpre q hq')
  frame := fun _ _ => rfl
  destroyedNone := by rintro k ⟨q, h1, h2, -⟩; exact absurd h2 (by omega)
  keptEq := fun _ _ => rfl
  stale := by intro q k h1 h2 _; exact absurd h2 (by omega)
  stop := hstop

lemma sweepLoop_spec (now : ℚ) (length : Nat) : ∀ (fuel pos : Nat) (s : SweepState),
    length - pos ≤ fuel → Inv s → s.timeouts.length = length →
    pos ≤ length → (∀ q, q < pos → s.timeouts.getD q none = none) →
    SweepLoopSpec now s pos (sweepLoop now length s pos) := by
  intro fuel
  induction fuel with
  | zero =>
    intro pos s hfuel hs hlen hple hpre
    have hpe : pos = length := by omega
    rw [sweepLoop_stop_eq (by omega)]
    exact sweepLoopSpec_self hs (by omega) hpre (Or.inl (by omega))
  | succ fuel ih =>
    intro pos s hfuel hs hlen hple hpre
    by_cases hpl : pos < length
    · cases hentry : s.timeouts.getD pos none with
      | none =>
        rw [sweepLoop_skip_eq hpl hentry]
        have hpre' : ∀ q, q < pos + 1 → s.timeouts.getD q none = none := by
          intro q hq
          rcases Nat.lt_or_ge q pos with h | h
          · exact hpre q h
          · have hqp : q = pos := by omega
            rw [hqp]; exact hentry
        have hr := ih (pos + 1) s (by omega) hs hlen (by omega) hpre'
        refine ⟨hr.inv, by have := hr.posLe; omega, hr.leLen, hr.lenEq,
          hr.offsetEq, hr.actsEq, hr.timeoutEq, hr.tomb, hr.frame, ?_, ?_, ?_,
          hr.stop⟩
        · rintro k ⟨q, h1, h2, h3⟩
          rcases Nat.lt_or_ge q (pos + 1) with h | h
          · have hqp : q = pos := by omega
            rw [hqp, hentry] at h3
            exact absurd h3 (by simp)
          · exact hr.destroyedNone k ⟨q, h, h2, h3⟩
        · intro k hnex
          refine hr.keptEq k ?_
          rintro ⟨q, h1, h2, h3⟩
          exact hnex ⟨q, by omega, h2, h3⟩
        · intro q k h1 h2 h3
          rcases Nat.lt_or_ge q (pos + 1) with h | h
          · have hqp : q = pos := by omega
            rw [hqp, hentry] at h3
            exact absurd h3 (by simp)
          · exact hr.stale q k h h2 h3
      | some hid =>
        by_cases hfresh : now - (s.acts hid : ℚ) < (s.timeout : ℚ)
        · rw [sweepLoop_fresh_eq hpl hentry hfresh]
          exact sweepLoopSpec_self hs (by omega) hpre
            (Or.inr ⟨hid, hentry, hfresh⟩)
        · rw [sweepLoop_destroy_eq hpl hentry hfresh,
            destroy_step_state hs hentry]
          have hk : s.h2t hid = some (pos : Int) := hs.2.1 pos hid hentry
          have hrw := remove_handler_some hk (by positivity)
          have hts : (remove_handler s hid).timeouts =
              s.timeouts.set pos none := by
            rw [hrw]; dsimp only; rw [Int.toNat_natCast]
          have hinv : Inv (remove_handler s hid) := inv_remove_handler hs hid
          have hoff : (remove_handler s hid).offset = s.offset := by rw [hrw]
          have hacts : (remove_handler s hid).acts = s.acts := by rw [hrw]
          have htime : (remove_handler s hid).timeout = s.timeout := by rw [hrw]
          have hh2t : (remove_handler s hid).h2t =
              fun k => if k = hid then none else s.h2t k := by rw [hrw]
          have hgetD : ∀ q, q ≠ pos →
              (remove_handler s hid).timeouts.getD q none =
                s.timeouts.getD q none := by
            intro q hq
            rw [hts, getD_set_none, if_neg (fun he => hq he.symm)]
          have hlen' : (remove_handler s hid).timeouts.length = length := by
            rw [hts]; simpa using hlen
          have hpre' : ∀ q, q < pos + 1 →
              (remove_handler s hid).timeouts.getD q none = none := by
            intro q hq
            rw [hts, getD_set_none]
            by_cases hqp : pos = q
            · rw [if_pos hqp]
            · rw [if_neg hqp]; exact hpre q (by omega)
          have hr := ih (pos + 1) (remove_handler s hid) (by omega) hinv hlen'
            (by omega) hpre'
          refine ⟨hr.inv, by have := hr.posLe; omega, ?_, ?_, ?_, ?_, ?_,
            hr.tomb, ?_, ?_, ?_, ?_, ?_⟩
          · have := hr.leLen; rw [hlen'] at this; omega
          · rw [hr.lenEq, hlen', hlen]
          · rw [hr.offsetEq, hoff]
          · rw [hr.actsEq, hacts]
          · rw [hr.timeoutEq, htime]
          · intro q hq
            have hq1 : pos + 1 ≤ q := le_trans hr.posLe hq
            rw [hr.frame q hq, hts, List.getElem?_set_ne (by omega)]
          · rintro k ⟨q, h1, h2, h3⟩
            rcases Nat.lt_or_ge q (pos + 1) with h | h
            · have hqp : q = pos := by omega
              rw [hqp, hentry] at h3
              injection h3 with h3
              subst h3
              by_cases hex : ∃ q', pos + 1 ≤ q' ∧ q' < (sweepLoop now length
                  (remove_handler s hid) (pos + 1)).2 ∧
                  (remove_handler s hid).timeouts.getD q' none = some hid
              · exact hr.destroyedNone hid hex
              · rw [hr.keptEq hid hex, hh2t]; simp
            · refine hr.destroyedNone k ⟨q, h, h2, ?_⟩
              rw [hgetD q (by omega)]
              exact h3
          · intro k hnex
            have hkne : k ≠ hid := by
              intro he
              subst he
              exact hnex ⟨pos, le_refl _, by have := hr.posLe; omega, hentry⟩
            have hnex' : ¬ ∃ q', pos + 1 ≤ q' ∧ q' < (sweepLoop now length
                (remove_handler s hid) (pos + 1)).2 ∧
                (remove_handler s hid).timeouts.getD q' none = some k := by
              rintro ⟨q', h1, h2, h3⟩
              rw [hgetD q' (by omega)] at h3
              exact hnex ⟨q', by omega, h2, h3⟩
            rw [hr.keptEq k hnex', hh2t]
            simp [hkne]
          · intro q k h1 h2 h3
            rcases Nat.lt_or_ge q (pos + 1) with h | h
            · have hqp : q = pos := by omega
              rw [hqp, hentry] at h3
              injection h3 with h3
              subst h3
              exact le_of_not_lt hfresh
            · have := hr.stale q k h h2 (by rw [hgetD q (by omega)]; exact h3)
              rw [hacts, htime] at this
              exact this
          · rcases hr.stop with h | ⟨k, h1, h2⟩
            · left; rw [h, hlen', hlen]
            · right
              refine ⟨k, ?_, ?_⟩
              · rw [← hgetD _ (by have := hr.posLe; omega)]
                exact h1
              · rw [← hacts, ← htime]
                exact h2
    · rw [sweepLoop_stop_eq hpl]
      have hpe : pos = length := by omega
      exact sweepLoopSpec_self hs (by omega) hpre (Or.inl (by omega))

lemma getD_drop (l : List (Option Nat)) (p q : Nat) :
    (l.drop p).getD q none = l.getD (p + q) none := by
  simp [List.getD_eq_getElem?_getD, List.getElem?_drop]

lemma inv_compact {s1 : SweepState} (p : Nat) (hInv : Inv s1)
    (htomb : ∀ q, q < p → s1.timeouts.getD q none = none)
    (hple : p ≤ s1.timeouts.length) :
    Inv { s1 with timeouts := s1.timeouts.drop p,
                  h2t := fun k => (s1.h2t k).map (fun i => i - (p : Int)),
                  offset := 0 } := by
  obtain ⟨ha, hb, _, _⟩ := hInv
  refine ⟨?_, ?_, ?_, ?_⟩
  · intro k j hkj
    dsimp only at hkj ⊢
    rw [Option.map_eq_some'] at hkj
    obtain ⟨i, hki, hij⟩ := hkj
    obtain ⟨hi0, hilen, higet⟩ := ha k i hki
    have hip : p ≤ i.toNat := by
      by_contra hlt
      rw [htomb i.toNat (by omega)] at higet
      exact absurd higet (by simp)
    subst hij
    refine ⟨by omega, ?_, ?_⟩
    · rw [List.length_drop]; omega
    · have ht : (i - (p : Int)).toNat = i.toNat - p := by omega
      rw [ht, getD_drop]
      have hpq : p + (i.toNat - p) = i.toNat := by omega
      rw [hpq]
      exact higet
  · intro q k hq
    dsimp only at hq ⊢
    rw [getD_drop] at hq
    rw [hb (p + q) k hq]
    simp only [Option.map_some']
    congr 1
    push_cast
    ring
  · intro q hq
    have hq' : q < 0 := hq
    exact absurd hq' (by omega)
  · dsimp only
    exact Nat.zero_le _

lemma inv_sweep_timeout {s : SweepState} (hs : Inv s) (now : ℚ) :
    Inv (sweep_timeout s now) := by
  unfold sweep_timeout
  by_cases hemp : s.timeouts.isEmpty = true
  · rw [if_pos hemp]; exact hs
  · rw [if_neg hemp]
    dsimp only
    have hr := sweepLoop_spec now s.timeouts.length
      (s.timeouts.length - s.offset) s.offset s (by omega) hs rfl
      hs.2.2.2 hs.2.2.1
    by_cases hcond : TIMEOUTS_CLEAN_SIZE <
        (sweepLoop now s.timeouts.length s s.offset).2 ∧
        s.timeouts.length / 2 < (sweepLoop now s.timeouts.length s s.offset).2
    · rw [if_pos hcond]
      have htombD : ∀ q, q < (sweepLoop now s.timeouts.length s s.offset).2 →
          (sweepLoop now s.timeouts.length s s.offset).1.timeouts.getD q none =
            none := by
        intro q hq
        exact getD_from_getElem? (hr.tomb q hq)
      exact inv_compact _ hr.inv htombD (by rw [hr.lenEq]; exact hr.leLen)
    · rw [if_neg hcond]
      obtain ⟨ha, hb, _, _⟩ := hr.inv
      refine ⟨ha, hb, ?_, ?_⟩
      · intro q hq
        exact getD_from_getElem? (hr.tomb q hq)
      · dsimp only
        rw [hr.lenEq]
        exact hr.leLen

/-- A concrete empty server state, used by witnesses. -/
def sweepState₀ : SweepState :=
  { timeouts := [], h2t := fun _ => none, offset := 0,
    acts := fun _ => 0, timeout := 300 }

lemma inv_sweepState₀ : Inv sweepState₀ := by
  refine ⟨?_, ?_, ?_, ?_⟩
  · intro k i hki
    exact absurd hki (by simp [sweepState₀])
  · intro q k hqk
    rw [show sweepState₀.timeouts = [] from rfl,
      getD_of_le _ _ (by simp)] at hqk
    exact absurd hqk (by simp)
  · intro q hq
    exact absurd hq (by simp [sweepState₀])
  · simp [sweepState₀]

/-- C1: after every server operation on the timeout structures
(`update_activity`, `remove_handler`, and a sweep including compaction),
the coherence invariant `Inv` is preserved: for every key in
`handler_to_timeouts` pointing to position `p`, `timeouts[p]` is a
non-tombstone entry referring to that handler (`Inv`'s first component),
and every live handler appears in `timeouts` at exactly one non-tombstone
position, equal to its stored index (`Inv`'s second component forces every
non-tombstone occurrence to sit at the stored index, so there is exactly
one). -/
theorem claim_C1_timeout_index_coherence (s : SweepState) (h : Nat)
    (now : Int) (nowQ : ℚ) (hs : Inv s) :
    Inv (remove_handler s h) ∧ Inv (update_activity s h now) ∧
      Inv (sweep_timeout s nowQ) :=
  ⟨inv_remove_handler hs h, inv_update_activity hs h now,
    inv_sweep_timeout hs nowQ⟩

/-- Witness for C1: the invariant hypothesis holds at a concrete state
and the theorem applies there. -/
theorem claim_C1_witness :
    Inv (remove_handler sweepState₀ 7) ∧
      Inv (update_activity sweepState₀ 7 10) ∧
      Inv (sweep_timeout sweepState₀ 3) :=
  claim_C1_timeout_index_coherence sweepState₀ 7 10 3 inv_sweepState₀

/-- C5: `update_activity(handler)` is a no-op when fewer than
`TIMEOUT_PRECISION = 4` seconds have elapsed since the handler's
`last_activity`; otherwise it tombstones the handler's prior `timeouts`
entry (when present), appends a fresh entry at the end of `timeouts`, and
updates the stored index; in both cases the sequence of `last_activity`
values over the non-tombstone entries of `timeouts` remains
non-decreasing. -/
theorem claim_C5_update_activity (s : SweepState) (h : Nat) (now : Int)
    (hs : Inv s)
    (hm : List.Pairwise (· ≤ ·) (actSeq s))
    (hle : ∀ a ∈ actSeq s, a ≤ now) :
    (now - s.acts h < TIMEOUT_PRECISION → update_activity s h now = s) ∧
    (TIMEOUT_PRECISION ≤ now - s.acts h →
      (∀ i : Int, s.h2t h = some i →
        (update_activity s h now).timeouts.getD i.toNat none = none) ∧
      (update_activity s h now).timeouts =
        (if 0 ≤ (s.h2t h).getD (-1)
          then s.timeouts.set ((s.h2t h).getD (-1)).toNat none
          else s.timeouts) ++ [some h] ∧
      (update_activity s h now).h2t h =
        some (((update_activity s h now).timeouts.length - 1 : Nat) : Int) ∧
      (update_activity s h now).acts h = now) ∧
    List.Pairwise (· ≤ ·) (actSeq (update_activity s h now)) := by
  refine ⟨fun hlt => update_activity_skip hlt, ?_,
    mono_update_activity hs h now hm hle⟩
  intro hge
  have hlt : ¬ now - s.acts h < TIMEOUT_PRECISION := by omega
  cases hk : s.h2t h with
  | some i =>
    have h0 : 0 ≤ i := (hs.1 h i hk).1
    have hilen : i.toNat < s.timeouts.length := (hs.1 h i hk).2.1
    rw [update_activity_some hlt hk h0]
    refine ⟨?_, ?_, ?_, ?_⟩
    · intro j hj
      injection hj with hj
      subst hj
      dsimp only
      rw [getD_append_lt _ _ _ (by simpa using hilen), getD_set_none,
        if_pos rfl]
    · dsimp only
      simp [h0]
    · dsimp only
      rw [if_pos rfl]
      simp
    · dsimp only
      rw [if_pos rfl]
  | none =>
    rw [update_activity_none hlt hk]
    refine ⟨?_, ?_, ?_, ?_⟩
    · intro j hj
      exact absurd hj (by simp)
    · dsimp only
      simp
    · dsimp only
      rw [if_pos rfl]
      simp
    · dsimp only
      rw [if_pos rfl]

/-- Witness for C5: the hypotheses hold at a concrete state and the
theorem applies there. -/
theorem claim_C5_witness :
    List.Pairwise (· ≤ ·) (actSeq (update_activity sweepState₀ 7 10)) :=
  (claim_C5_update_activity sweepState₀ 7 10 inv_sweepState₀
    (by simp [actSeq, sweepState₀])
    (by intro a ha; simp [actSeq, sweepState₀] at ha)).2.2

/-- C6: the sweep walks forward from the cursor `timeout_offset` to a
stop position `p`, skipping tombstones, destroying and tombstoning every
live entry at least `timeout` seconds old, and stopping at the first live
entry fresher than `timeout` (or the end); afterwards, when the cursor
exceeds both `TIMEOUTS_CLEAN_SIZE = 512` and half the sequence length,
the prefix `[0, p)` is dropped, every stored index is decremented by `p`,
and the cursor resets to `0`; otherwise the cursor is left at `p`, the
prefix `[0, p)` is tombstoned, the rest of the sequence is untouched, and
destroyed handlers (and only they) are removed from the index. -/
theorem claim_C6_sweep_procedure (s : SweepState) (now : ℚ)
    (hs : Inv s) (hne : s.timeouts ≠ []) :
    ∃ p, s.offset ≤ p ∧ p ≤ s.timeouts.length ∧
      (∀ q k, s.offset ≤ q → q < p → s.timeouts.getD q none = some k →
        (s.timeout : ℚ) ≤ now - (s.acts k : ℚ)) ∧
      (p = s.timeouts.length ∨
        ∃ k, s.timeouts.getD p none = some k ∧
          now - (s.acts k : ℚ) < (s.timeout : ℚ)) ∧
      (sweep_timeout s now).acts = s.acts ∧
      (sweep_timeout s now).timeout = s.timeout ∧
      (if TIMEOUTS_CLEAN_SIZE < p ∧ s.timeouts.length / 2 < p then
        (sweep_timeout s now).timeouts = s.timeouts.drop p ∧
        (∀ k, (∃ q, s.offset ≤ q ∧ q < p ∧ s.timeouts.getD q none = some k) →
          (sweep_timeout s now).h2t k = none) ∧
        (∀ k, (¬ ∃ q, s.offset ≤ q ∧ q < p ∧ s.timeouts.getD q none = some k) →
          (sweep_timeout s now).h2t k =
            (s.h2t k).map (fun i => i - (p : Int))) ∧
        (sweep_timeout s now).offset = 0
      else
        (sweep_timeout s now).offset = p ∧
        (sweep_timeout s now).timeouts.length = s.timeouts.length ∧
        (∀ q, q < p → (sweep_timeout s now).timeouts.getD q none = none) ∧
        (∀ q, p ≤ q → (sweep_timeout s now).timeouts[q]? = s.timeouts[q]?) ∧
        (∀ k, (∃ q, s.offset ≤ q ∧ q < p ∧ s.timeouts.getD q none = some k) →
          (sweep_timeout s now).h2t k = none) ∧
        (∀ k, (¬ ∃ q, s.offset ≤ q ∧ q < p ∧ s.timeouts.getD q none = some k) →
          (sweep_timeout s now).h2t k = s.h2t k)) := by
  have hemp : ¬ s.timeouts.isEmpty = true := by
    simpa [List.isEmpty_iff] using hne
  have hr := sweepLoop_spec now s.timeouts.length
    (s.timeouts.length - s.offset) s.offset s (by omega) hs rfl
    hs.2.2.2 hs.2.2.1
  have hsw : sweep_timeout s now =
      (if TIMEOUTS_CLEAN_SIZE < (sweepLoop now s.timeouts.length s s.offset).2 ∧
          s.timeouts.length / 2 <
            (sweepLoop now s.timeouts.length s s.offset).2 then
        { (sweepLoop now s.timeouts.length s s.offset).1 with
            timeouts := (sweepLoop now s.timeouts.length s
              s.offset).1.timeouts.drop
                (sweepLoop now s.timeouts.length s s.offset).2,
            h2t := fun k => ((sweepLoop now s.timeouts.length s
              s.offset).1.h2t k).map
                (fun i => i - ((sweepLoop now s.timeouts.length s
                  s.offset).2 : Int)),
            offset := 0 }
      else { (sweepLoop now s.timeouts.length s s.offset).1 with
              offset := (sweepLoop now s.timeouts.length s s.offset).2 }) := by
    unfold sweep_timeout
    rw [if_neg hemp]
  refine ⟨(sweepLoop now s.timeouts.length s s.offset).2, hr.posLe, hr.leLen,
    hr.stale, hr.stop, ?_, ?_, ?_⟩
  · rw [hsw]
    split
    · dsimp only; rw [hr.actsEq]
    · dsimp only; rw [hr.actsEq]
  · rw [hsw]
    split
    · dsimp only; rw [hr.timeoutEq]
    · dsimp only; rw [hr.timeoutEq]
  · rw [hsw]
    by_cases hcond : TIMEOUTS_CLEAN_SIZE <
        (sweepLoop now s.timeouts.length s s.offset).2 ∧
        s.timeouts.length / 2 < (sweepLoop now s.timeouts.length s s.offset).2
    · rw [if_pos hcond, if_pos hcond]
      refine ⟨?_, ?_, ?_, rfl⟩
      · dsimp only
        apply List.ext_getElem?
        intro n
        rw [List.getElem?_drop, List.getElem?_drop]
        exact hr.frame _ (by omega)
      · intro k hk
        dsimp only
        rw [hr.destroyedNone k hk]
        rfl
      · intro k hk
        dsimp only
        rw [hr.keptEq k hk]
    · rw [if_neg hcond, if_neg hcond]
      refine ⟨rfl, hr.lenEq, ?_, hr.frame, ?_, ?_⟩
      · intro q hq
        exact getD_from_getElem? (hr.tomb q hq)
      · intro k hk
        exact hr.destroyedNone k hk
      · intro k hk
        exact hr.keptEq k hk

/-- Witness for C6: the hypotheses hold at a concrete non-empty state and
the theorem applies there. -/
theorem claim_C6_witness :
    ∃ p, (SweepState.mk [none] (fun _ => none) 0 (fun _ => 0) 300).offset ≤ p ∧
      p ≤ (SweepState.mk [none] (fun _ => none) 0 (fun _ => 0) 300).timeouts.length := by
  have hs : Inv (SweepState.mk [none] (fun _ => none) 0 (fun _ => 0) 300) := by
    refine ⟨?_, ?_, ?_, ?_⟩
    · intro k i hki
      exact absurd hki (by simp)
    · intro q k hqk
      match q with
      | 0 => rw [List.getD_cons_zero] at hqk; exact absurd hqk (by simp)
      | n + 1 =>
        rw [List.getD_cons_succ, getD_of_le _ _ (by simp)] at hqk
        exact absurd hqk (by simp)
    · intro q hq
      have hq' : q < 0 := hq
      exact absurd hq' (by omega)
    · simp
  obtain ⟨p, h1, h2, -⟩ := claim_C6_sweep_procedure
    (SweepState.mk [none] (fun _ => none) 0 (fun _ => 0) 300) 7 hs (by simp)
  exact ⟨p, h1, h2⟩

/-! The post-batch sweep trigger. -/

/-- `_last_time` (`tcprelay.py` line 375) next to the timeout
structures. -/
structure RelayState where
  sweep : SweepState
  last_time : ℚ

/-- The tail of `TCPRelay._handle_events` (`tcprelay.py` lines 495-498):
`now = time.time(); if now - self._last_time > TIMEOUT_PRECISION:
self._sweep_timeout(); self._last_time = now`.  `nowSweep` is the
`time.time()` value read inside `_sweep_timeout`. -/
def handle_events_tick (s : RelayState) (now nowSweep : ℚ) : RelayState :=
  if now - s.last_time > (TIMEOUT_PRECISION : ℚ) then
    { sweep := sweep_timeout s.sweep nowSweep, last_time := now }
  else s

/-- Counterexample to C8 as stated: when exactly `TIMEOUT_PRECISION = 4`
seconds have elapsed since `last_sweep_time` — so the wall clock "has
advanced by at least 4 seconds" — the dispatcher does *not* run the
sweeper and does *not* update the timestamp, because the code compares
with strict `>`. -/
theorem claim_C8_counterexample :
    (4 : ℚ) - (RelayState.mk sweepState₀ 0).last_time ≥ (TIMEOUT_PRECISION : ℚ) ∧
    handle_events_tick (RelayState.mk sweepState₀ 0) 4 4 =
      RelayState.mk sweepState₀ 0 ∧
    (RelayState.mk sweepState₀ 0).last_time ≠ 4 := by
  refine ⟨by norm_num [TIMEOUT_PRECISION], ?_, by norm_num⟩
  unfold handle_events_tick
  rw [if_neg (by norm_num [TIMEOUT_PRECISION])]

/-- C8 (amended): after processing each event batch, the dispatcher runs
the timeout sweeper and updates `last_sweep_time` if and only if
wall-clock time has advanced by strictly more than `TIMEOUT_PRECISION = 4`
seconds since `last_sweep_time`. -/
theorem claim_C8_sweeper_trigger (s : RelayState) (now nowSweep : ℚ) :
    (now - s.last_time > (TIMEOUT_PRECISION : ℚ) →
      handle_events_tick s now nowSweep =
        { sweep := sweep_timeout s.sweep nowSweep, last_time := now }) ∧
    (¬ now - s.last_time > (TIMEOUT_PRECISION : ℚ) →
      handle_events_tick s now nowSweep = s) := by
  constructor <;> intro h <;> simp [handle_events_tick, h]

/-- Witness for C8 at concrete inputs on both sides of the threshold. -/
theorem claim_C8_witness :
    handle_events_tick (RelayState.mk sweepState₀ 0) 5 5 =
      { sweep := sweep_timeout sweepState₀ 5, last_time := 5 } ∧
    handle_events_tick (RelayState.mk sweepState₀ 0) 2 2 =
      RelayState.mk sweepState₀ 0 :=
  ⟨(claim_C8_sweeper_trigger (RelayState.mk sweepState₀ 0) 5 5).1
      (by norm_num [TIMEOUT_PRECISION]),
    (claim_C8_sweeper_trigger (RelayState.mk sweepState₀ 0) 2 2).2
      (by norm_num [TIMEOUT_PRECISION])⟩

/-!
The handler model.  A `TCPRelayHandler` (`tcprelay.py` lines 72-365)
together with the server-side structures it mutates.  Sockets are
identified by their file descriptors; comparisons like
`sock == self._local_sock` become equality with the current `Option`
field (socket objects are unique per fd).  Byte strings are `List Nat`.
`close` and `send` calls and initiated upstream connections are recorded
in logs so that theorems can speak about them; `del` on an absent key and
`loop.modify` are modelled as plain map updates.
-/

/-- The mutable attributes of `TCPRelayHandler` (`tcprelay.py`
lines 75-94). -/
structure Handler where
  hid : Nat
  is_local : Bool
  local_sock : Option Nat
  remote_sock : Option Nat
  stage : Nat
  data_to_write_to_local : List (List Nat)
  data_to_write_to_remote : List (List Nat)
  upstream_status : Nat
  downstream_status : Nat
  remote_address : Option (String × Nat)

/-- One handler plus the server state it touches: the poller registration
map (`loopMask fd = some mask` iff `fd` is registered), `_fd_to_handlers`,
the timeout structures, and observation logs: closed fds, `(fd, data)`
pairs passed to `sock.send`, and `(target, resolved)` pairs for initiated
upstream connections. -/
structure World where
  handler : Handler
  server : SweepState
  loopMask : Nat → Option Nat
  fd_to_handlers : Nat → Option Nat
  closeLog : List Nat
  sendLog : List (Nat × List Nat)
  connLog : List ((String × Nat) × (String × Nat))

/-- External collaborators: the cipher (abstracted as per-call functions),
`parse_header` returning `(addrtype, remote_addr, remote_port,
header_length)`, `getaddrinfo` returning resolved socket addresses, and
the configured `server`/`server_port`. -/
structure Ext where
  encrypt : List Nat → List Nat
  decrypt : List Nat → List Nat
  parse_header : List Nat → Option (Nat × String × Nat × Nat)
  getaddrinfo : String → Nat → List (String × Nat)
  server : String
  server_port : Nat

/-- Outcome of a `sock.send` call: either `k` bytes transmitted, or an
`OSError` with the given errno. -/
inductive SendRes where
  | sent (k : Nat)
  | errRes (e : Nat)

/-- Outcome of a `sock.recv` call: a benign `ETIMEDOUT`/`EAGAIN` error
(early return), or data (`[]` covers both peer close and a non-benign
`OSError`, which leaves `data = None` and reaches `if not data`). -/
inductive RecvRes where
  | benign
  | bytes (d : List Nat)

/-- Per-event environment: the `int(time.time())` clock, the recv
outcome, the send outcomes for the read-side and write-side callbacks,
a fresh fd for a newly created upstream socket, and the local socket's
family/bound address/port for the UDP-associate reply. -/
structure Env where
  nowI : Int
  recv : RecvRes
  sendR : SendRes
  sendW : SendRes
  newFd : Nat
  isV6 : Bool
  boundAddr : List Nat
  boundPort : Nat

/-- The poller interest recomputed for `local_sock` by `update_stream`
(`tcprelay.py` lines 120-126). -/
def interest_local (dn up : Nat) : Nat :=
  POLL_ERR ||| (if dn &&& WAIT_STATUS_WRITING ≠ 0 then POLL_OUT else 0) |||
    (if up &&& WAIT_STATUS_READING ≠ 0 then POLL_IN else 0)

/-- The poller interest recomputed for `remote_sock` by `update_stream`
(`tcprelay.py` lines 127-133). -/
def interest_remote (dn up : Nat) : Nat :=
  POLL_ERR ||| (if dn &&& WAIT_STATUS_READING ≠ 0 then POLL_IN else 0) |||
    (if up &&& WAIT_STATUS_WRITING ≠ 0 then POLL_OUT else 0)

/-- `TCPRelayHandler.update_stream` (`tcprelay.py` lines 109-133). -/
def update_stream (w : World) (stream status : Nat) : World :=
  let h := w.handler
  let dirty : Bool :=
    if stream = STREAM_DOWN then h.downstream_status != status
    else if stream = STREAM_UP then h.upstream_status != status
    else false
  let h' :=
    if stream = STREAM_DOWN then { h with downstream_status := status }
    else if stream = STREAM_UP then { h with upstream_status := status }
    else h
  if dirty then
    let w1 := { w with handler := h' }
    let w2 :=
      match h'.local_sock with
      | some fd =>
        { w1 with loopMask := (fun x =>
            if x = fd then
              some (interest_local h'.downstream_status h'.upstream_status)
            else w1.loopMask x) }
      | none => w1
    match h'.remote_sock with
    | some fd =>
      { w2 with loopMask := (fun x =>
          if x = fd then
            some (interest_remote h'.downstream_status h'.upstream_status)
          else w2.loopMask x) }
    | none => w2
  else w

/-- `TCPRelayHandler.destroy` (`tcprelay.py` lines 349-365). -/
def destroy (w : World) : World :=
  let w1 :=
    match w.handler.remote_sock with
    | some fd =>
      { w with loopMask := (fun x => if x = fd then none else w.loopMask x),
               fd_to_handlers :=
                 (fun x => if x = fd then none else w.fd_to_handlers x),
               closeLog := w.closeLog ++ [fd],
               handler := { w.handler with remote_sock := none } }
    | none => w
  let w2 :=
    match w1.handler.local_sock with
    | some fd =>
      { w1 with loopMask := (fun x => if x = fd then none else w1.loopMask x),
                fd_to_handlers :=
                  (fun x => if x = fd then none else w1.fd_to_handlers x),
                closeLog := w1.closeLog ++ [fd],
                handler := { w1.handler with local_sock := none } }
    | none => w1
  { w2 with server := remove_handler w2.server w2.handler.hid }

/-- `TCPRelayHandler.write_to_sock` (`tcprelay.py` lines 135-167); `res`
is the outcome of the single `sock.send` call. -/
def write_to_sock (w : World) (data : List Nat) (sockOpt : Option Nat)
    (res : SendRes) : World :=
  match sockOpt with
  | none => w
  | some fd =>
    if data = [] then w
    else
      let w0 := { w with sendLog := w.sendLog ++ [(fd, data)] }
      let step : Bool × List Nat × World :=
        match res with
        | .sent k =>
          if k < data.length then (true, data.drop k, w0) else (false, data, w0)
        | .errRes e =>
          if e = EAGAIN ∨ e = EINPROGRESS then (true, data, w0)
          else (false, data, destroy w0)
      let uncomplete := step.1
      let data' := step.2.1
      let w1 := step.2.2
      if uncomplete then
        if w1.handler.local_sock = some fd then
          update_stream
            { w1 with handler := { w1.handler with
                data_to_write_to_local :=
                  w1.handler.data_to_write_to_local ++ [data'] } }
            STREAM_DOWN WAIT_STATUS_WRITING
        else if w1.handler.remote_sock = some fd then
          update_stream
            { w1 with handler := { w1.handler with
                data_to_write_to_remote :=
                  w1.handler.data_to_write_to_remote ++ [data'] } }
            STREAM_UP WAIT_STATUS_WRITING
        else w1
      else
        if w1.handler.local_sock = some fd then
          update_stream w1 STREAM_DOWN WAIT_STATUS_READING
        else if w1.handler.remote_sock = some fd then
          update_stream w1 STREAM_UP WAIT_STATUS_READING
        else w1

/-- The SOCKS5 CONNECT success reply (`tcprelay.py` lines 238-239). -/
def connect_reply : List Nat := [5, 0, 0, 1, 0, 0, 0, 0, 16, 16]

/-- The shared tail of the address-parsing branch of
`TCPRelayHandler.on_local_read` (`tcprelay.py` lines 229-274): parse the
header, record `remote_address`, role-specific enqueueing, resolve and
connect. -/
def connect_part (ext : Ext) (w : World) (env : Env) (d : List Nat) : World :=
  match ext.parse_header d with
  | none => destroy w
  | some (_addrtype, remote_addr, remote_port, header_length) =>
    let wA := { w with handler :=
      { w.handler with remote_address := some (remote_addr, remote_port) } }
    let step : World × String × Nat :=
      if wA.handler.is_local then
        let w1 := write_to_sock wA connect_reply wA.handler.local_sock env.sendR
        let w2 := { w1 with handler := { w1.handler with
          data_to_write_to_remote :=
            w1.handler.data_to_write_to_remote ++ [ext.encrypt d] } }
        (w2, ext.server, ext.server_port)
      else
        let w1 :=
          if header_length < d.length then
            { wA with handler := { wA.handler with
              data_to_write_to_remote :=
                wA.handler.data_to_write_to_remote ++ [d.drop header_length] } }
          else wA
        (w1, remote_addr, remote_port)
    let w2 := step.1
    let raddr := step.2.1
    let rport := step.2.2
    match ext.getaddrinfo raddr rport with
    | [] => destroy w2
    | sa :: _ =>
      let w3 := { w2 with
        handler := { w2.handler with remote_sock := some env.newFd },
        fd_to_handlers :=
          (fun x => if x = env.newFd then some w2.handler.hid
            else w2.fd_to_handlers x),
        connLog := w2.connLog ++ [((raddr, rport), sa)],
        loopMask :=
          (fun x => if x = env.newFd then some (POLL_ERR ||| POLL_OUT)
            else w2.loopMask x) }
      let w4 := { w3 with handler := { w3.handler with stage := STAGE_REPLY } }
      update_stream (update_stream w4 STREAM_UP WAIT_STATUS_READWRITING)
        STREAM_DOWN WAIT_STATUS_READING

/-- The command-dispatch branch of `TCPRelayHandler.on_local_read`
(`tcprelay.py` lines 202-228): runs when `(is_local and stage == HELLO)`
or `(not is_local and stage == INIT)`.  Exceptions inside the `try` —
short data at `ord(data[1])`, an unparseable header, an empty
`getaddrinfo` result — end in `destroy`. -/
def hello_branch (ext : Ext) (w : World) (env : Env) (d : List Nat) : World :=
  if w.handler.is_local then
    match d[1]? with
    | none => destroy w
    | some cmd =>
      if cmd = CMD_UDP_ASSOCIATE then
        let header := if env.isV6 then [5, 0, 0, 4] else [5, 0, 0, 1]
        let reply := header ++ env.boundAddr ++
          [env.boundPort / 256 % 256, env.boundPort % 256]
        let w1 := write_to_sock w reply w.handler.local_sock env.sendR
        { w1 with handler := { w1.handler with stage := STAGE_UDP_ASSOC } }
      else if cmd = CMD_CONNECT then
        connect_part ext w env (d.drop 3)
      else destroy w
  else connect_part ext w env d

/-- `TCPRelayHandler.on_local_read` (`tcprelay.py` lines 169-279). -/
def on_local_read (ext : Ext) (w : World) (env : Env) : World :=
  let w := { w with server := update_activity w.server w.handler.hid env.nowI }
  if w.handler.local_sock = none then w
  else
    match env.recv with
    | .benign => w
    | .bytes d0 =>
      if d0 = [] then destroy w
      else
        let d := if w.handler.is_local then d0 else ext.decrypt d0
        if w.handler.is_local = false ∧ d = [] then w
        else if w.handler.stage = STAGE_STREAM then
          let d1 := if w.handler.is_local then ext.encrypt d else d
          write_to_sock w d1 w.handler.remote_sock env.sendR
        else if w.handler.is_local = true ∧ w.handler.stage = STAGE_INIT then
          let w1 := write_to_sock w [5, 0] w.handler.local_sock env.sendR
          { w1 with handler := { w1.handler with stage := STAGE_HELLO } }
        else if w.handler.stage = STAGE_REPLY then
          let d1 := if w.handler.is_local then ext.encrypt d else d
          { w with handler := { w.handler with
            data_to_write_to_remote :=
              w.handler.data_to_write_to_remote ++ [d1] } }
        else if (w.handler.is_local = true ∧ w.handler.stage = STAGE_HELLO) ∨
            (w.handler.is_local = false ∧ w.handler.stage = STAGE_INIT) then
          hello_branch ext w env d
        else w

/-- `TCPRelayHandler.on_remote_read` (`tcprelay.py` lines 281-303). -/
def on_remote_read (ext : Ext) (w : World) (env : Env) : World :=
  let w := { w with server := update_activity w.server w.handler.hid env.nowI }
  match env.recv with
  | .benign => w
  | .bytes d0 =>
    if d0 = [] then destroy w
    else
      let d := if w.handler.is_local then ext.decrypt d0 else ext.encrypt d0
      write_to_sock w d w.handler.local_sock env.sendR

/-- `TCPRelayHandler.on_local_write` (`tcprelay.py` lines 305-311). -/
def on_local_write (w : World) (env : Env) : World :=
  if w.handler.data_to_write_to_local ≠ [] then
    write_to_sock
      { w with handler := { w.handler with data_to_write_to_local := [] } }
      w.handler.data_to_write_to_local.flatten w.handler.local_sock env.sendW
  else update_stream w STREAM_DOWN WAIT_STATUS_READING

/-- `TCPRelayHandler.on_remote_write` (`tcprelay.py` lines 313-320). -/
def on_remote_write (w : World) (env : Env) : World :=
  let wS := { w with handler := { w.handler with stage := STAGE_STREAM } }
  if wS.handler.data_to_write_to_remote ≠ [] then
    write_to_sock
      { wS with handler := { wS.handler with data_to_write_to_remote := [] } }
      wS.handler.data_to_write_to_remote.flatten wS.handler.remote_sock
      env.sendW
  else update_stream wS STREAM_UP WAIT_STATUS_READING

/-- `TCPRelayHandler.on_local_error` (`tcprelay.py` lines 322-324). -/
def on_local_error (w : World) : World := destroy w

/-- `TCPRelayHandler.on_remote_error` (`tcprelay.py` lines 326-328). -/
def on_remote_error (w : World) : World := destroy w

/-- `TCPRelayHandler.handle_event` (`tcprelay.py` lines 330-347).  The
branch is chosen by comparing the delivered socket with the handler's
current fields, once, at entry. -/
def handle_event (ext : Ext) (w : World) (sockFd : Nat) (event : Nat)
    (env : Env) : World :=
  if some sockFd = w.handler.remote_sock then
    let w1 := if event &&& POLL_IN ≠ 0 then on_remote_read ext w env else w
    let w2 := if event &&& POLL_OUT ≠ 0 then on_remote_write w1 env else w1
    if event &&& POLL_ERR ≠ 0 then on_remote_error w2 else w2
  else if some sockFd = w.handler.local_sock then
    let w1 := if event &&& POLL_IN ≠ 0 then on_local_read ext w env else w
    let w2 := if event &&& POLL_OUT ≠ 0 then on_local_write w1 env else w1
    if event &&& POLL_ERR ≠ 0 then on_local_error w2 else w2
  else w

/-! Frame and effect lemmas for `update_stream`. -/

lemma update_stream_frame (w : World) (stream status : Nat) :
    (update_stream w stream status).handler.stage = w.handler.stage ∧
    (update_stream w stream status).handler.is_local = w.handler.is_local ∧
    (update_stream w stream status).handler.local_sock =
      w.handler.local_sock ∧
    (update_stream w stream status).handler.remote_sock =
      w.handler.remote_sock ∧
    (update_stream w stream status).handler.hid = w.handler.hid ∧
    (update_stream w stream status).handler.data_to_write_to_local =
      w.handler.data_to_write_to_local ∧
    (update_stream w stream status).handler.data_to_write_to_remote =
      w.handler.data_to_write_to_remote ∧
    (update_stream w stream status).handler.remote_address =
      w.handler.remote_address ∧
    (update_stream w stream status).server = w.server ∧
    (update_stream w stream status).closeLog = w.closeLog ∧
    (update_stream w stream status).sendLog = w.sendLog ∧
    (update_stream w stream status).connLog = w.connLog ∧
    (update_stream w stream status).fd_to_handlers = w.fd_to_handlers := by
  unfold update_stream
  dsimp only
  repeat' split
  all_goals simp_all

lemma update_stream_down_status (w : World) (st : Nat) :
    (update_stream w STREAM_DOWN st).handler.downstream_status = st ∧
    (update_stream w STREAM_DOWN st).handler.upstream_status =
      w.handler.upstream_status := by
  unfold update_stream
  dsimp only
  repeat' split
  all_goals simp_all [STREAM_DOWN, STREAM_UP]

lemma update_stream_up_status (w : World) (st : Nat) :
    (update_stream w STREAM_UP st).handler.upstream_status = st ∧
    (update_stream w STREAM_UP st).handler.downstream_status =
      w.handler.downstream_status := by
  unfold update_stream
  dsimp only
  repeat' split
  all_goals simp_all [STREAM_DOWN, STREAM_UP]

/-- C3: whenever `update_stream` changes a direction's status, the
recomputed interest mask for `local_sock` is `ERR`, plus `OUT` iff the
downstream status has the `WRITING` bit, plus `IN` iff the upstream
status has the `READING` bit; and the mask for `remote_sock` is `ERR`,
plus `OUT` iff the upstream status has the `WRITING` bit, plus `IN` iff
the downstream status has the `READING` bit. -/
theorem claim_C3_interest_bitmap (w : World) (stream status : Nat)
    (hdirty : (stream = STREAM_DOWN ∧ w.handler.downstream_status ≠ status) ∨
      (stream = STREAM_UP ∧ w.handler.upstream_status ≠ status)) :
    (∀ fdL, w.handler.local_sock = some fdL →
      (∀ fdR, w.handler.remote_sock = some fdR → fdR ≠ fdL) →
      (update_stream w stream status).loopMask fdL =
        some (POLL_ERR |||
          (if (update_stream w stream status).handler.downstream_status &&&
              WAIT_STATUS_WRITING ≠ 0 then POLL_OUT else 0) |||
          (if (update_stream w stream status).handler.upstream_status &&&
              WAIT_STATUS_READING ≠ 0 then POLL_IN else 0))) ∧
    (∀ fdR, w.handler.remote_sock = some fdR →
      (update_stream w stream status).loopMask fdR =
        some (POLL_ERR |||
          (if (update_stream w stream status).handler.downstream_status &&&
              WAIT_STATUS_READING ≠ 0 then POLL_IN else 0) |||
          (if (update_stream w stream status).handler.upstream_status &&&
              WAIT_STATUS_WRITING ≠ 0 then POLL_OUT else 0))) := by
  rcases hdirty with ⟨hst, hne⟩ | ⟨hst, hne⟩ <;> subst hst
  · constructor
    · intro fdL hL hRne
      cases hRs : w.handler.remote_sock with
      | none =>
        unfold update_stream
        simp [hL, hRs, hne, interest_local, interest_remote,
          STREAM_DOWN, STREAM_UP]
      | some fdR =>
        have hne' : fdR ≠ fdL := hRne fdR hRs
        unfold update_stream
        simp [hL, hRs, hne, hne', hne'.symm, interest_local, interest_remote,
          STREAM_DOWN, STREAM_UP]
    · intro fdR hR
      cases hLs : w.handler.local_sock with
      | none =>
        unfold update_stream
        simp [hLs, hR, hne, interest_local, interest_remote,
          STREAM_DOWN, STREAM_UP]
      | some fdL =>
        unfold update_stream
        simp [hLs, hR, hne, interest_local, interest_remote,
          STREAM_DOWN, STREAM_UP]
  · constructor
    · intro fdL hL hRne
      cases hRs : w.handler.remote_sock with
      | none =>
        unfold update_stream
        simp [hL, hRs, hne, interest_local, interest_remote,
          STREAM_DOWN, STREAM_UP]
      | some fdR =>
        have hne' : fdR ≠ fdL := hRne fdR hRs
        unfold update_stream
        simp [hL, hRs, hne, hne', hne'.symm, interest_local, interest_remote,
          STREAM_DOWN, STREAM_UP]
    · intro fdR hR
      cases hLs : w.handler.local_sock with
      | none =>
        unfold update_stream
        simp [hLs, hR, hne, interest_local, interest_remote,
          STREAM_DOWN, STREAM_UP]
      | some fdL =>
        unfold update_stream
        simp [hLs, hR, hne, interest_local, interest_remote,
          STREAM_DOWN, STREAM_UP]

/-- A concrete handler/world used by witnesses: streaming local handler
with fds 1 (local) and 2 (remote). -/
def handler₀ : Handler :=
  { hid := 0, is_local := true, local_sock := some 1, remote_sock := some 2,
    stage := STAGE_STREAM, data_to_write_to_local := [],
    data_to_write_to_remote := [], upstream_status := WAIT_STATUS_READING,
    downstream_status := WAIT_STATUS_INIT, remote_address := none }

def world₀ : World :=
  { handler := handler₀, server := sweepState₀,
    loopMask := fun _ => none,
    fd_to_handlers := fun x => if x = 1 ∨ x = 2 then some 0 else none,
    closeLog := [], sendLog := [], connLog := [] }

/-- Witness for C3: a dirty downstream change on the concrete world. -/
theorem claim_C3_witness :
    (update_stream world₀ STREAM_DOWN WAIT_STATUS_WRITING).loopMask 1 =
      some (POLL_ERR |||
        (if (update_stream world₀ STREAM_DOWN
            WAIT_STATUS_WRITING).handler.downstream_status &&&
            WAIT_STATUS_WRITING ≠ 0 then POLL_OUT else 0) |||
        (if (update_stream world₀ STREAM_DOWN
            WAIT_STATUS_WRITING).handler.upstream_status &&&
            WAIT_STATUS_READING ≠ 0 then POLL_IN else 0)) :=
  (claim_C3_interest_bitmap world₀ STREAM_DOWN WAIT_STATUS_WRITING
    (Or.inl ⟨rfl, by decide⟩)).1 1 rfl
    (by intro fdR h; injection h with h; omega)

/-- C2: byte-pump semantics of `write_to_sock(data, sock)`: a released
socket or empty data is a no-op; a partial send of `k < len(data)` bytes
queues the remaining slice `data[k:]` on that direction's pending queue
(downstream for `local_sock`, upstream for `remote_sock`) and sets that
direction's status to `WRITING`; `EAGAIN`/`EINPROGRESS` queues the full
data the same way; a full send sets that direction's status to
`READING`. -/
theorem claim_C2_write_to_sock (w : World) (data : List Nat) (res : SendRes) :
    (write_to_sock w data none res = w) ∧
    (∀ sockOpt, write_to_sock w [] sockOpt res = w) ∧
    (∀ fd k, w.handler.local_sock = some fd → data ≠ [] →
      res = SendRes.sent k → k < data.length →
      (write_to_sock w data (some fd) res).handler.data_to_write_to_local =
        w.handler.data_to_write_to_local ++ [data.drop k] ∧
      (write_to_sock w data (some fd) res).handler.downstream_status =
        WAIT_STATUS_WRITING) ∧
    (∀ fd k, w.handler.remote_sock = some fd →
      w.handler.local_sock ≠ some fd → data ≠ [] →
      res = SendRes.sent k → k < data.length →
      (write_to_sock w data (some fd) res).handler.data_to_write_to_remote =
        w.handler.data_to_write_to_remote ++ [data.drop k] ∧
      (write_to_sock w data (some fd) res).handler.upstream_status =
        WAIT_STATUS_WRITING) ∧
    (∀ fd e, w.handler.local_sock = some fd → data ≠ [] →
      res = SendRes.errRes e → (e = EAGAIN ∨ e = EINPROGRESS) →
      (write_to_sock w data (some fd) res).handler.data_to_write_to_local =
        w.handler.data_to_write_to_local ++ [data] ∧
      (write_to_sock w data (some fd) res).handler.downstream_status =
        WAIT_STATUS_WRITING) ∧
    (∀ fd e, w.handler.remote_sock = some fd →
      w.handler.local_sock ≠ some fd → data ≠ [] →
      res = SendRes.errRes e → (e = EAGAIN ∨ e = EINPROGRESS) →
      (write_to_sock w data (some fd) res).handler.data_to_write_to_remote =
        w.handler.data_to_write_to_remote ++ [data] ∧
      (write_to_sock w data (some fd) res).handler.upstream_status =
        WAIT_STATUS_WRITING) ∧
    (∀ fd k, w.handler.local_sock = some fd → data ≠ [] →
      res = SendRes.sent k → ¬ k < data.length →
      (write_to_sock w data (some fd) res).handler.downstream_status =
        WAIT_STATUS_READING) ∧
    (∀ fd k, w.handler.remote_sock = some fd →
      w.handler.local_sock ≠ some fd → data ≠ [] →
      res = SendRes.sent k → ¬ k < data.length →
      (write_to_sock w data (some fd) res).handler.upstream_status =
        WAIT_STATUS_READING) := by
  refine ⟨rfl, fun sockOpt => ?_, ?_, ?_, ?_, ?_, ?_, ?_⟩
  · cases sockOpt <;> simp [write_to_sock]
  · intro fd k hL hdata hres hk
    subst hres
    have hred : write_to_sock w data (some fd) (SendRes.sent k) =
        update_stream
          { w with sendLog := w.sendLog ++ [(fd, data)],
                   handler := { w.handler with data_to_write_to_local :=
                     w.handler.data_to_write_to_local ++ [data.drop k] } }
          STREAM_DOWN WAIT_STATUS_WRITING := by
      unfold write_to_sock
      simp [hdata, hk, hL]
    rw [hred]
    exact ⟨(update_stream_frame _ _ _).2.2.2.2.2.1,
      (update_stream_down_status _ _).1⟩
  · intro fd k hR hLne hdata hres hk
    subst hres
    have hred : write_to_sock w data (some fd) (SendRes.sent k) =
        update_stream
          { w with sendLog := w.sendLog ++ [(fd, data)],
                   handler := { w.handler with data_to_write_to_remote :=
                     w.handler.data_to_write_to_remote ++ [data.drop k] } }
          STREAM_UP WAIT_STATUS_WRITING := by
      unfold write_to_sock
      simp [hdata, hk, hLne, hR]
    rw [hred]
    exact ⟨(update_stream_frame _ _ _).2.2.2.2.2.2.1,
      (update_stream_up_status _ _).1⟩
  · intro fd e hL hdata hres he
    subst hres
    have hred : write_to_sock w data (some fd) (SendRes.errRes e) =
        update_stream
          { w with sendLog := w.sendLog ++ [(fd, data)],
                   handler := { w.handler with data_to_write_to_local :=
                     w.handler.data_to_write_to_local ++ [data] } }
          STREAM_DOWN WAIT_STATUS_WRITING := by
      unfold write_to_sock
      simp [hdata, he, hL]
    rw [hred]
    exact ⟨(update_stream_frame _ _ _).2.2.2.2.2.1,
      (update_stream_down_status _ _).1⟩
  · intro fd e hR hLne hdata hres he
    subst hres
    have hred : write_to_sock w data (some fd) (SendRes.errRes e) =
        update_stream
          { w with sendLog := w.sendLog ++ [(fd, data)],
                   handler := { w.handler with data_to_write_to_remote :=
                     w.handler.data_to_write_to_remote ++ [data] } }
          STREAM_UP WAIT_STATUS_WRITING := by
      unfold write_to_sock
      simp [hdata, he, hLne, hR]
    rw [hred]
    exact ⟨(update_stream_frame _ _ _).2.2.2.2.2.2.1,
      (update_stream_up_status _ _).1⟩
  · intro fd k hL hdata hres hk
    subst hres
    have hred : write_to_sock w data (some fd) (SendRes.sent k) =
        update_stream { w with sendLog := w.sendLog ++ [(fd, data)] }
          STREAM_DOWN WAIT_STATUS_READING := by
      unfold write_to_sock
      simp [hdata, hk, hL]
    rw [hred]
    exact (update_stream_down_status _ _).1
  · intro fd k hR hLne hdata hres hk
    subst hres
    have hred : write_to_sock w data (some fd) (SendRes.sent k) =
        update_stream { w with sendLog := w.sendLog ++ [(fd, data)] }
          STREAM_UP WAIT_STATUS_READING := by
      unfold write_to_sock
      simp [hdata, hk, hLne, hR]
    rw [hred]
    exact (update_stream_up_status _ _).1

/-- Witness for C2: a partial send of 1 of 3 bytes on the local socket of
the concrete world queues the remaining slice downstream and marks
downstream `WRITING`. -/
theorem claim_C2_witness :
    (write_to_sock world₀ [1, 2, 3] (some 1)
        (SendRes.sent 1)).handler.data_to_write_to_local =
      world₀.handler.data_to_write_to_local ++ [[1, 2, 3].drop 1] ∧
    (write_to_sock world₀ [1, 2, 3] (some 1)
        (SendRes.sent 1)).handler.downstream_status = WAIT_STATUS_WRITING :=
  (claim_C2_write_to_sock world₀ [1, 2, 3] (SendRes.sent 1)).2.2.1 1 1 rfl
    (by decide) rfl (by decide)

/-! Destroy. -/

lemma destroy_both {w : World} {a b : Nat}
    (hL : w.handler.local_sock = some a) (hR : w.handler.remote_sock = some b) :
    destroy w =
      { w with
        handler := { w.handler with local_sock := none, remote_sock := none },
        loopMask := (fun x => if x = a then none
          else if x = b then none else w.loopMask x),
        fd_to_handlers := (fun x => if x = a then none
          else if x = b then none else w.fd_to_handlers x),
        closeLog := w.closeLog ++ [b] ++ [a],
        server := remove_handler w.server w.handler.hid } := by
  unfold destroy
  simp [hL, hR]

lemma destroy_none_none {w : World}
    (hL : w.handler.local_sock = none) (hR : w.handler.remote_sock = none)
    (hk : w.server.h2t w.handler.hid = none) :
    destroy w = w := by
  unfold destroy
  rw [hR]
  dsimp only
  rw [hL]
  dsimp only
  rw [remove_handler_none hk]

/-- C4: after the first call to `destroy` both sockets are removed from
the poller, their fds are absent from `fd_to_handlers`, both sockets are
closed (their fds are appended to the close log exactly once each) and
nulled, and the handler has no entry in the server's timeout index; a
second call to `destroy` changes nothing, so each fd is closed exactly
once even when `destroy` is called twice.  The hypothesis on the stored
index is part of the server invariant (`Inv` gives `0 ≤ i`). -/
theorem claim_C4_destroy_idempotent (w : World) (a b : Nat)
    (hL : w.handler.local_sock = some a) (hR : w.handler.remote_sock = some b)
    (hab : a ≠ b)
    (hnn : ∀ i, w.server.h2t w.handler.hid = some i → 0 ≤ i) :
    (destroy w).handler.local_sock = none ∧
    (destroy w).handler.remote_sock = none ∧
    (destroy w).loopMask a = none ∧ (destroy w).loopMask b = none ∧
    (destroy w).fd_to_handlers a = none ∧
    (destroy w).fd_to_handlers b = none ∧
    (destroy w).server.h2t w.handler.hid = none ∧
    (destroy w).closeLog = w.closeLog ++ [b] ++ [a] ∧
    destroy (destroy w) = destroy w ∧
    (destroy (destroy w)).closeLog.count a = w.closeLog.count a + 1 ∧
    (destroy (destroy w)).closeLog.count b = w.closeLog.count b + 1 := by
  have hserv : (remove_handler w.server w.handler.hid).h2t w.handler.hid =
      none := by
    cases hk : w.server.h2t w.handler.hid with
    | none => rw [remove_handler_none hk]; exact hk
    | some i =>
      rw [remove_handler_some hk (hnn i hk)]
      simp
  have hred := destroy_both hL hR
  have hidem : destroy (destroy w) = destroy w := by
    rw [hred]
    exact destroy_none_none rfl rfl hserv
  rw [hidem, hred]
  refine ⟨rfl, rfl, by simp, by simp [hab], by simp, by simp [hab], hserv,
    rfl, rfl, ?_, ?_⟩ <;>
    simp [List.count_append, hab, Ne.symm hab, List.count_singleton]

/-- Witness for C4 on the concrete world. -/
theorem claim_C4_witness :
    (destroy world₀).handler.local_sock = none ∧
    (destroy world₀).handler.remote_sock = none ∧
    (destroy world₀).loopMask 1 = none ∧ (destroy world₀).loopMask 2 = none ∧
    (destroy world₀).fd_to_handlers 1 = none ∧
    (destroy world₀).fd_to_handlers 2 = none ∧
    (destroy world₀).server.h2t world₀.handler.hid = none ∧
    (destroy world₀).closeLog = world₀.closeLog ++ [2] ++ [1] ∧
    destroy (destroy world₀) = destroy world₀ ∧
    (destroy (destroy world₀)).closeLog.count 1 =
      world₀.closeLog.count 1 + 1 ∧
    (destroy (destroy world₀)).closeLog.count 2 =
      world₀.closeLog.count 2 + 1 :=
  claim_C4_destroy_idempotent world₀ 1 2 rfl rfl (by decide)
    (by intro i hi; exact absurd hi (by simp [world₀, sweepState₀]))

/-! Componentwise frame lemmas, used to push conclusions through the
composed operations. -/

lemma us_stage (w : World) (s st : Nat) :
    (update_stream w s st).handler.stage = w.handler.stage :=
  (update_stream_frame w s st).1

lemma us_is_local (w : World) (s st : Nat) :
    (update_stream w s st).handler.is_local = w.handler.is_local :=
  (update_stream_frame w s st).2.1

lemma us_local_sock (w : World) (s st : Nat) :
    (update_stream w s st).handler.local_sock = w.handler.local_sock :=
  (update_stream_frame w s st).2.2.1

lemma us_remote_sock (w : World) (s st : Nat) :
    (update_stream w s st).handler.remote_sock = w.handler.remote_sock :=
  (update_stream_frame w s st).2.2.2.1

lemma us_hid (w : World) (s st : Nat) :
    (update_stream w s st).handler.hid = w.handler.hid :=
  (update_stream_frame w s st).2.2.2.2.1

lemma us_dtwl (w : World) (s st : Nat) :
    (update_stream w s st).handler.data_to_write_to_local =
      w.handler.data_to_write_to_local :=
  (update_stream_frame w s st).2.2.2.2.2.1

lemma us_dtwr (w : World) (s st : Nat) :
    (update_stream w s st).handler.data_to_write_to_remote =
      w.handler.data_to_write_to_remote :=
  (update_stream_frame w s st).2.2.2.2.2.2.1

lemma us_remote_address (w : World) (s st : Nat) :
    (update_stream w s st).handler.remote_address =
      w.handler.remote_address :=
  (update_stream_frame w s st).2.2.2.2.2.2.2.1

lemma us_server (w : World) (s st : Nat) :
    (update_stream w s st).server = w.server :=
  (update_stream_frame w s st).2.2.2.2.2.2.2.2.1

lemma us_closeLog (w : World) (s st : Nat) :
    (update_stream w s st).closeLog = w.closeLog :=
  (update_stream_frame w s st).2.2.2.2.2.2.2.2.2.1

lemma us_sendLog (w : World) (s st : Nat) :
    (update_stream w s st).sendLog = w.sendLog :=
  (update_stream_frame w s st).2.2.2.2.2.2.2.2.2.2.1

lemma us_connLog (w : World) (s st : Nat) :
    (update_stream w s st).connLog = w.connLog :=
  (update_stream_frame w s st).2.2.2.2.2.2.2.2.2.2.2.1

lemma destroy_frame (w : World) :
    (destroy w).handler.stage = w.handler.stage ∧
    (destroy w).handler.is_local = w.handler.is_local ∧
    (destroy w).handler.hid = w.handler.hid ∧
    (destroy w).handler.data_to_write_to_local =
      w.handler.data_to_write_to_local ∧
    (destroy w).handler.data_to_write_to_remote =
      w.handler.data_to_write_to_remote ∧
    (destroy w).handler.upstream_status = w.handler.upstream_status ∧
    (destroy w).handler.downstream_status = w.handler.downstream_status ∧
    (destroy w).handler.remote_address = w.handler.remote_address ∧
    (destroy w).sendLog = w.sendLog ∧
    (destroy w).connLog = w.connLog := by
  unfold destroy
  dsimp only
  repeat' split
  all_goals simp_all

lemma d_stage (w : World) : (destroy w).handler.stage = w.handler.stage :=
  (destroy_frame w).1

lemma d_is_local (w : World) :
    (destroy w).handler.is_local = w.handler.is_local :=
  (destroy_frame w).2.1

lemma d_hid (w : World) : (destroy w).handler.hid = w.handler.hid :=
  (destroy_frame w).2.2.1

lemma d_dtwl (w : World) :
    (destroy w).handler.data_to_write_to_local =
      w.handler.data_to_write_to_local :=
  (destroy_frame w).2.2.2.1

lemma d_dtwr (w : World) :
    (destroy w).handler.data_to_write_to_remote =
      w.handler.data_to_write_to_remote :=
  (destroy_frame w).2.2.2.2.1

lemma d_up (w : World) :
    (destroy w).handler.upstream_status = w.handler.upstream_status :=
  (destroy_frame w).2.2.2.2.2.1

lemma d_down (w : World) :
    (destroy w).handler.downstream_status = w.handler.downstream_status :=
  (destroy_frame w).2.2.2.2.2.2.1

lemma d_remote_address (w : World) :
    (destroy w).handler.remote_address = w.handler.remote_address :=
  (destroy_frame w).2.2.2.2.2.2.2.1

lemma d_sendLog (w : World) : (destroy w).sendLog = w.sendLog :=
  (destroy_frame w).2.2.2.2.2.2.2.2.1

lemma d_connLog (w : World) : (destroy w).connLog = w.connLog :=
  (destroy_frame w).2.2.2.2.2.2.2.2.2

lemma d_socks (w : World) :
    (destroy w).handler.local_sock = none ∧
    (destroy w).handler.remote_sock = none := by
  unfold destroy
  dsimp only
  repeat' split
  all_goals simp_all

lemma ws_stage (w : World) (data : List Nat) (so : Option Nat)
    (res : SendRes) :
    (write_to_sock w data so res).handler.stage = w.handler.stage := by
  unfold write_to_sock
  dsimp only
  repeat' split
  all_goals simp [us_stage, d_stage]

lemma ws_is_local (w : World) (data : List Nat) (so : Option Nat)
    (res : SendRes) :
    (write_to_sock w data so res).handler.is_local = w.handler.is_local := by
  unfold write_to_sock
  dsimp only
  repeat' split
  all_goals simp [us_is_local, d_is_local]

lemma ws_hid (w : World) (data : List Nat) (so : Option Nat) (res : SendRes) :
    (write_to_sock w data so res).handler.hid = w.handler.hid := by
  unfold write_to_sock
  dsimp only
  repeat' split
  all_goals simp [us_hid, d_hid]

lemma ws_remote_address (w : World) (data : List Nat) (so : Option Nat)
    (res : SendRes) :
    (write_to_sock w data so res).handler.remote_address =
      w.handler.remote_address := by
  unfold write_to_sock
  dsimp only
  repeat' split
  all_goals simp [us_remote_address, d_remote_address]

lemma ws_connLog (w : World) (data : List Nat) (so : Option Nat)
    (res : SendRes) :
    (write_to_sock w data so res).connLog = w.connLog := by
  unfold write_to_sock
  dsimp only
  repeat' split
  all_goals simp [us_connLog, d_connLog]

lemma ws_sendLog (w : World) (data : List Nat) (fd : Nat) (res : SendRes)
    (hdata : data ≠ []) :
    (write_to_sock w data (some fd) res).sendLog =
      w.sendLog ++ [(fd, data)] := by
  unfold write_to_sock
  dsimp only
  repeat' split
  all_goals simp_all [us_sendLog, d_sendLog]

/-- Writing to the (present) local socket never touches the upstream
pending queue. -/
lemma ws_local_dtwr (w : World) (data : List Nat) (fd : Nat) (res : SendRes)
    (hL : w.handler.local_sock = some fd) :
    (write_to_sock w data (some fd) res).handler.data_to_write_to_remote =
      w.handler.data_to_write_to_remote := by
  unfold write_to_sock
  dsimp only
  repeat' split
  all_goals
    simp_all [us_dtwr, d_dtwr, us_dtwl, d_dtwl, (d_socks _).1, (d_socks _).2]

/-! Claim C10: buffering while the upstream connect is pending. -/

lemma on_local_read_reply {ext : Ext} {w : World} {env : Env} {d0 : List Nat}
    {fd : Nat}
    (hL : w.handler.local_sock = some fd)
    (hstage : w.handler.stage = STAGE_REPLY)
    (hrecv : env.recv = RecvRes.bytes d0) (hd0 : d0 ≠ [])
    (hdec : w.handler.is_local = false → ext.decrypt d0 ≠ []) :
    on_local_read ext w env =
      { w with server := update_activity w.server w.handler.hid env.nowI,
               handler := { w.handler with data_to_write_to_remote :=
                 w.handler.data_to_write_to_remote ++
                   [if w.handler.is_local then ext.encrypt d0
                    else ext.decrypt d0] } } := by
  unfold on_local_read
  rw [hrecv]
  cases hloc : w.handler.is_local with
  | true =>
    simp [hL, hd0, hstage, hloc, STAGE_REPLY, STAGE_STREAM, STAGE_INIT]
  | false =>
    have hdec' := hdec hloc
    simp [hL, hd0, hstage, hloc, hdec', STAGE_REPLY, STAGE_STREAM, STAGE_INIT]

/-- C10: while a handler is in stage `REPLY` (upstream connect pending),
every chunk read from the local socket is appended — encrypted first at
the local role, decrypted-only at the remote role — to
`pending_to_remote`, with no send attempted and without changing
`upstream_status`, `downstream_status` or the stage; the buffered bytes
are flushed (passed to `send` on the remote socket) by a later
remote-writable event. -/
theorem claim_C10_reply_buffering (ext : Ext) (w : World) (env : Env)
    (d0 : List Nat) (fd rfd : Nat)
    (hL : w.handler.local_sock = some fd)
    (hR : w.handler.remote_sock = some rfd)
    (hstage : w.handler.stage = STAGE_REPLY)
    (hrecv : env.recv = RecvRes.bytes d0) (hd0 : d0 ≠ [])
    (hdec : w.handler.is_local = false → ext.decrypt d0 ≠ []) :
    (on_local_read ext w env).handler.data_to_write_to_remote =
      w.handler.data_to_write_to_remote ++
        [if w.handler.is_local then ext.encrypt d0 else ext.decrypt d0] ∧
    (on_local_read ext w env).sendLog = w.sendLog ∧
    (on_local_read ext w env).handler.upstream_status =
      w.handler.upstream_status ∧
    (on_local_read ext w env).handler.downstream_status =
      w.handler.downstream_status ∧
    (on_local_read ext w env).handler.stage = STAGE_REPLY ∧
    (∀ env2,
      (on_local_read ext w env).handler.data_to_write_to_remote.flatten ≠
        [] →
      (on_remote_write (on_local_read ext w env) env2).sendLog =
        w.sendLog ++
          [(rfd,
            (on_local_read ext w env).handler.data_to_write_to_remote.flatten)]) := by
  have hflush : ∀ (w' : World) (env2 : Env),
      w'.handler.remote_sock = some rfd →
      w'.handler.data_to_write_to_remote ≠ [] →
      w'.handler.data_to_write_to_remote.flatten ≠ [] →
      (on_remote_write w' env2).sendLog =
        w'.sendLog ++ [(rfd, w'.handler.data_to_write_to_remote.flatten)] := by
    intro w' env2 hR' hq hfl
    unfold on_remote_write
    rw [if_pos (by simpa using hq)]
    dsimp only
    rw [hR']
    rw [ws_sendLog _ _ _ _ hfl]
  rw [on_local_read_reply hL hstage hrecv hd0 hdec]
  refine ⟨rfl, rfl, rfl, rfl, hstage, ?_⟩
  intro env2 hfl
  exact hflush _ env2 hR (by simp) hfl

/-- Witness for C10 at a concrete REPLY-stage world. -/
theorem claim_C10_witness :
    (on_local_read
        (Ext.mk id id (fun _ => none) (fun _ _ => []) "srv" 8388)
        { world₀ with handler := { handler₀ with stage := STAGE_REPLY } }
        (Env.mk 0 (RecvRes.bytes [9]) (SendRes.sent 0) (SendRes.sent 0) 3
          false [] 0)).handler.data_to_write_to_remote =
      ({ world₀ with handler := { handler₀ with stage := STAGE_REPLY } } :
        World).handler.data_to_write_to_remote ++
        [if ({ world₀ with handler := { handler₀ with stage := STAGE_REPLY } } :
          World).handler.is_local then id [9] else id [9]] :=
  (claim_C10_reply_buffering
    (Ext.mk id id (fun _ => none) (fun _ _ => []) "srv" 8388)
    { world₀ with handler := { handler₀ with stage := STAGE_REPLY } }
    (Env.mk 0 (RecvRes.bytes [9]) (SendRes.sent 0) (SendRes.sent 0) 3
      false [] 0)
    [9] 1 2 rfl rfl rfl rfl (by decide) (by intro h; simp)).1

/-! Claim C7: CONNECT handling at the local role. -/

lemma on_local_read_hello_connect {ext : Ext} {w : World} {env : Env}
    {d0 : List Nat} {fd : Nat}
    (hL : w.handler.local_sock = some fd)
    (hloc : w.handler.is_local = true)
    (hstage : w.handler.stage = STAGE_HELLO)
    (hrecv : env.recv = RecvRes.bytes d0)
    (hcmd : d0[1]? = some CMD_CONNECT) :
    on_local_read ext w env =
      connect_part ext
        { w with server := update_activity w.server w.handler.hid env.nowI }
        env (d0.drop 3) := by
  have hd0 : d0 ≠ [] := by
    intro h
    rw [h] at hcmd
    simp at hcmd
  unfold on_local_read hello_branch
  rw [hrecv]
  simp [hL, hd0, hloc, hstage, hcmd, STAGE_HELLO, STAGE_STREAM, STAGE_INIT,
    STAGE_REPLY, CMD_CONNECT, CMD_UDP_ASSOCIATE]

lemma connect_part_local_spec (ext : Ext) (w : World) (env : Env)
    (d : List Nat) (fd : Nat)
    (hL : w.handler.local_sock = some fd)
    (hloc : w.handler.is_local = true)
    (atyp : Nat) (ra : String) (rp hl : Nat)
    (hp : ext.parse_header d = some (atyp, ra, rp, hl))
    (sa : String × Nat) (rest : List (String × Nat))
    (hgai : ext.getaddrinfo ext.server ext.server_port = sa :: rest) :
    (connect_part ext w env d).handler.remote_address = some (ra, rp) ∧
    (connect_part ext w env d).sendLog =
      w.sendLog ++ [(fd, connect_reply)] ∧
    (connect_part ext w env d).handler.data_to_write_to_remote =
      w.handler.data_to_write_to_remote ++ [ext.encrypt d] ∧
    (connect_part ext w env d).connLog =
      w.connLog ++ [((ext.server, ext.server_port), sa)] ∧
    (connect_part ext w env d).handler.remote_sock = some env.newFd ∧
    (connect_part ext w env d).handler.stage = STAGE_REPLY := by
  unfold connect_part
  rw [hp]
  dsimp only
  simp only [hloc, if_true]
  try dsimp only
  rw [hgai]
  try dsimp only
  refine ⟨?_, ?_, ?_, ?_, ?_, ?_⟩
  · simp [us_remote_address, ws_remote_address]
  · simp [us_sendLog, hL, ws_sendLog, connect_reply]
  · simp [us_dtwr, hL, ws_local_dtwr]
  · simp [us_connLog, ws_connLog]
  · simp [us_remote_sock]
  · simp [us_stage]

/-- C7: for a client request read in stage `HELLO` whose byte 1 is
`CMD_CONNECT = 1`, the handler strips the first three bytes, parses the
remainder as an address header, records `remote_address`, passes exactly
the bytes `05 00 00 01 00 00 00 00 10 10` to `send` on the local socket,
appends the encryption of the trimmed header bytes to
`pending_to_remote`, and initiates a non-blocking connect to the
configured `server`/`server_port` (the connection log records the target
and the resolved address, the new upstream socket exists, and the stage
moves to `REPLY`). -/
theorem claim_C7_connect_local (ext : Ext) (w : World) (env : Env)
    (d0 : List Nat) (fd : Nat)
    (hL : w.handler.local_sock = some fd)
    (hloc : w.handler.is_local = true)
    (hstage : w.handler.stage = STAGE_HELLO)
    (hrecv : env.recv = RecvRes.bytes d0)
    (hcmd : d0[1]? = some CMD_CONNECT)
    (atyp : Nat) (ra : String) (rp hl : Nat)
    (hp : ext.parse_header (d0.drop 3) = some (atyp, ra, rp, hl))
    (sa : String × Nat) (rest : List (String × Nat))
    (hgai : ext.getaddrinfo ext.server ext.server_port = sa :: rest) :
    (on_local_read ext w env).handler.remote_address = some (ra, rp) ∧
    (on_local_read ext w env).sendLog =
      w.sendLog ++ [(fd, [5, 0, 0, 1, 0, 0, 0, 0, 16, 16])] ∧
    (on_local_read ext w env).handler.data_to_write_to_remote =
      w.handler.data_to_write_to_remote ++ [ext.encrypt (d0.drop 3)] ∧
    (on_local_read ext w env).connLog =
      w.connLog ++ [((ext.server, ext.server_port), sa)] ∧
    (on_local_read ext w env).handler.remote_sock = some env.newFd ∧
    (on_local_read ext w env).handler.stage = STAGE_REPLY := by
  rw [on_local_read_hello_connect hL hloc hstage hrecv hcmd]
  exact connect_part_local_spec ext
    { w with server := update_activity w.server w.handler.hid env.nowI }
    env (d0.drop 3) fd hL hloc atyp ra rp hl hp sa rest hgai

/-- Concrete data for the C7 witness. -/
def world₇ : World :=
  { world₀ with
    handler := { handler₀ with stage := STAGE_HELLO, remote_sock := none } }

def ext₇ : Ext :=
  Ext.mk id id (fun d => some (1, "dst", 80, d.length))
    (fun _ _ => [("10.0.0.1", 8388)]) "srv" 8388

def env₇ : Env :=
  Env.mk 0 (RecvRes.bytes [5, 1, 0, 1, 127, 0, 0, 1, 0, 80])
    (SendRes.sent 10) (SendRes.sent 0) 9 false [] 0

/-- Witness for C7 on a concrete HELLO-stage world and request
`05 01 00 01 7F 00 00 01 00 50`. -/
theorem claim_C7_witness :
    (on_local_read ext₇ world₇ env₇).connLog =
      world₇.connLog ++ [(("srv", 8388), ("10.0.0.1", 8388))] :=
  (claim_C7_connect_local ext₇ world₇ env₇
    [5, 1, 0, 1, 127, 0, 0, 1, 0, 80] 1 rfl rfl rfl rfl (by decide)
    1 "dst" 80 7 rfl ("10.0.0.1", 8388) [] rfl).2.2.2.1

/-!
Claim C9: stage monotonicity over runs of dispatched events.
-/

/-- One dispatched poller event for a handler: the ready socket's fd, the
event mask, and the OS outcomes of the callbacks it triggers. -/
structure Event where
  sockFd : Nat
  mask : Nat
  env : Env

/-- The stages a handler occupies along a run: the initial stage followed
by the stage after each dispatched event. -/
def stageTrace (ext : Ext) : World → List Event → List Nat
  | w, [] => [w.handler.stage]
  | w, e :: es =>
    w.handler.stage ::
      stageTrace ext (handle_event ext w e.sockFd e.mask e.env) es

/-- Collapse consecutive duplicates: the sequence of *distinct* stage
values occupied. -/
def dedupRun : List Nat → List Nat
  | [] => []
  | [a] => [a]
  | a :: b :: rest =>
    if a = b then dedupRun (b :: rest) else a :: dedupRun (b :: rest)

/-- The reachability invariant behind stage monotonicity: a live remote
socket implies the stage is `REPLY` or `STREAM`, and a remote-role
handler only occupies `INIT`, `REPLY` or `STREAM`. -/
def Inv9 (w : World) : Prop :=
  (w.handler.remote_sock ≠ none →
    w.handler.stage = STAGE_REPLY ∨ w.handler.stage = STAGE_STREAM) ∧
  (w.handler.is_local = false →
    w.handler.stage = STAGE_INIT ∨ w.handler.stage = STAGE_REPLY ∨
      w.handler.stage = STAGE_STREAM)

/-- The stage transitions a single dispatched event can make. -/
def StageEdge (l : Bool) (s s' : Nat) : Prop :=
  (l = true ∧ ((s = 0 ∧ s' = 1) ∨ (s = 1 ∧ s' = 2) ∨ (s = 1 ∧ s' = 4) ∨
    (s = 4 ∧ s' = 5))) ∨
  (l = false ∧ ((s = 0 ∧ s' = 4) ∨ (s = 4 ∧ s' = 5)))

lemma inv9_of_frame {w w' : World} (hInv : Inv9 w)
    (hstage : w'.handler.stage = w.handler.stage)
    (hloc : w'.handler.is_local = w.handler.is_local)
    (hrem : w'.handler.remote_sock = w.handler.remote_sock ∨
      w'.handler.remote_sock = none) :
    Inv9 w' := by
  obtain ⟨h1, h2⟩ := hInv
  constructor
  · intro hne
    rcases hrem with h | h
    · rw [hstage]
      exact h1 (by rw [← h]; exact hne)
    · exact absurd h hne
  · intro hl
    rw [hstage]
    exact h2 (by rw [← hloc]; exact hl)

lemma ws_remote_opt (w : World) (data : List Nat) (so : Option Nat)
    (res : SendRes) :
    (write_to_sock w data so res).handler.remote_sock =
        w.handler.remote_sock ∨
      (write_to_sock w data so res).handler.remote_sock = none := by
  unfold write_to_sock
  dsimp only
  repeat' split
  all_goals simp [us_remote_sock, (d_socks _).2]

lemma olr_frame_wact (w : World) (srv : SweepState) :
    Inv9 w → Inv9 { w with server := srv } :=
  fun h => inv9_of_frame h rfl rfl (Or.inl rfl)

/-- `on_remote_read` never changes the stage or role, and can only null
the remote socket. -/
lemma on_remote_read_step (ext : Ext) (w : World) (env : Env) :
    (on_remote_read ext w env).handler.stage = w.handler.stage ∧
    (on_remote_read ext w env).handler.is_local = w.handler.is_local ∧
    ((on_remote_read ext w env).handler.remote_sock =
        w.handler.remote_sock ∨
      (on_remote_read ext w env).handler.remote_sock = none) := by
  unfold on_remote_read
  cases env.recv with
  | benign => exact ⟨rfl, rfl, Or.inl rfl⟩
  | bytes d0 =>
    dsimp only
    by_cases h0 : d0 = []
    · simp [h0, d_stage, d_is_local, (d_socks _).2]
    · rw [if_neg h0]
      exact ⟨ws_stage _ _ _ _, ws_is_local _ _ _ _, ws_remote_opt _ _ _ _⟩

/-- `on_local_write` never changes the stage or role, and can only null
the remote socket. -/
lemma on_local_write_step (w : World) (env : Env) :
    (on_local_write w env).handler.stage = w.handler.stage ∧
    (on_local_write w env).handler.is_local = w.handler.is_local ∧
    ((on_local_write w env).handler.remote_sock = w.handler.remote_sock ∨
      (on_local_write w env).handler.remote_sock = none) := by
  unfold on_local_write
  by_cases hq : w.handler.data_to_write_to_local ≠ []
  · rw [if_pos hq]
    exact ⟨ws_stage _ _ _ _, ws_is_local _ _ _ _, ws_remote_opt _ _ _ _⟩
  · rw [if_neg hq]
    exact ⟨us_stage _ _ _, us_is_local _ _ _,
      Or.inl (us_remote_sock _ _ _)⟩

/-- `on_remote_write` sets the stage to `STREAM`, keeps the role, and can
only null the remote socket. -/
lemma on_remote_write_step (w : World) (env : Env) :
    (on_remote_write w env).handler.stage = STAGE_STREAM ∧
    (on_remote_write w env).handler.is_local = w.handler.is_local ∧
    ((on_remote_write w env).handler.remote_sock = w.handler.remote_sock ∨
      (on_remote_write w env).handler.remote_sock = none) := by
  unfold on_remote_write
  by_cases hq : w.handler.data_to_write_to_remote ≠ []
  · rw [if_pos (by simpa using hq)]
    exact ⟨by rw [ws_stage], by rw [ws_is_local], ws_remote_opt _ _ _ _⟩
  · rw [if_neg (by simpa using hq)]
    exact ⟨by rw [us_stage], by rw [us_is_local],
      Or.inl (by rw [us_remote_sock])⟩

lemma destroy_step (w : World) :
    (destroy w).handler.stage = w.handler.stage ∧
    (destroy w).handler.is_local = w.handler.is_local ∧
    (destroy w).handler.remote_sock = none :=
  ⟨d_stage w, d_is_local w, (d_socks w).2⟩

lemma inv9_final {w' : World}
    (hs : w'.handler.stage = STAGE_REPLY ∨
      w'.handler.stage = STAGE_STREAM) : Inv9 w' := by
  refine ⟨fun _ => hs, fun _ => ?_⟩
  rcases hs with h | h
  · exact Or.inr (Or.inl h)
  · exact Or.inr (Or.inr h)

/-- Conclusions of a step that ends in `destroy`: the stage is unchanged
and the invariant is preserved. -/
lemma destroyed_concl2 {w2 : World} {l : Bool} {s : Nat}
    (hst : (destroy w2).handler.stage = s)
    (hloc' : (destroy w2).handler.is_local = l)
    (hrmt : l = false → s = STAGE_INIT ∨ s = STAGE_REPLY ∨
      s = STAGE_STREAM) :
    Inv9 (destroy w2) ∧ (destroy w2).handler.is_local = l ∧
    ((destroy w2).handler.stage = s ∨
      StageEdge l s (destroy w2).handler.stage) := by
  refine ⟨⟨fun hne => absurd (d_socks _).2 hne, fun hl => ?_⟩, hloc',
    Or.inl hst⟩
  rw [hst]
  exact hrmt (by rw [← hloc']; exact hl)

/-- Conclusions of the successful connect: the stage is `REPLY`, reached
along an allowed edge. -/
lemma final_step_concl2 {w' : World} {l : Bool} {s : Nat}
    (hst : w'.handler.stage = STAGE_REPLY)
    (hloc' : w'.handler.is_local = l)
    (hedge : (l = true ∧ s = STAGE_HELLO) ∨ (l = false ∧ s = STAGE_INIT)) :
    Inv9 w' ∧ w'.handler.is_local = l ∧
    (w'.handler.stage = s ∨ StageEdge l s w'.handler.stage) := by
  refine ⟨inv9_final (Or.inl hst), hloc', Or.inr ?_⟩
  rcases hedge with ⟨hl, hs⟩ | ⟨hl, hs⟩
  · exact Or.inl ⟨hl, Or.inr (Or.inr (Or.inl
      ⟨by simpa [STAGE_HELLO] using hs, by simpa [STAGE_REPLY] using hst⟩))⟩
  · exact Or.inr ⟨hl, Or.inl
      ⟨by simpa [STAGE_INIT] using hs, by simpa [STAGE_REPLY] using hst⟩⟩

lemma connect_part_step (ext : Ext) (w : World) (env : Env) (d : List Nat)
    (hInv : Inv9 w)
    (hcond : (w.handler.is_local = true ∧ w.handler.stage = STAGE_HELLO) ∨
      (w.handler.is_local = false ∧ w.handler.stage = STAGE_INIT)) :
    Inv9 (connect_part ext w env d) ∧
    (connect_part ext w env d).handler.is_local = w.handler.is_local ∧
    ((connect_part ext w env d).handler.stage = w.handler.stage ∨
      StageEdge w.handler.is_local w.handler.stage
        (connect_part ext w env d).handler.stage) := by
  unfold connect_part
  cases hp : ext.parse_header d with
  | none =>
    exact ⟨inv9_of_frame hInv (d_stage _) (d_is_local _)
      (Or.inr (d_socks _).2), d_is_local _, Or.inl (d_stage _)⟩
  | some res =>
    obtain ⟨atyp, ra, rp, hl⟩ := res
    dsimp only
    cases hloc : w.handler.is_local with
    | true =>
      simp only [hloc, eq_self_iff_true, if_true]
      try dsimp only
      cases hg : ext.getaddrinfo ext.server ext.server_port with
      | nil =>
        try dsimp only
        refine destroyed_concl2 (by simp [d_stage, ws_stage])
          (by simp [d_is_local, ws_is_local]) (by simp)
      | cons sa rest =>
        try dsimp only
        refine final_step_concl2 (by simp [us_stage])
          (by simp [us_is_local, ws_is_local]) ?_
        rcases hcond with ⟨h1, h2⟩ | ⟨h1, h2⟩
        · exact Or.inl ⟨rfl, h2⟩
        · rw [hloc] at h1
          exact absurd h1 (by decide)
    | false =>
      simp only [hloc, Bool.false_eq_true, if_false]
      try dsimp only
      by_cases hhl : hl < d.length
      · simp only [if_pos hhl]
        cases hg : ext.getaddrinfo ra rp with
        | nil =>
          try dsimp only
          refine destroyed_concl2 (by simp [d_stage]) (by simp [d_is_local])
            ?_
          intro _
          exact hInv.2 hloc
        | cons sa rest =>
          try dsimp only
          refine final_step_concl2 (by simp [us_stage])
            (by simp [us_is_local]) ?_
          rcases hcond with ⟨h1, h2⟩ | ⟨h1, h2⟩
          · rw [hloc] at h1
            exact absurd h1 (by decide)
          · exact Or.inr ⟨rfl, h2⟩
      · simp only [if_neg hhl]
        cases hg : ext.getaddrinfo ra rp with
        | nil =>
          try dsimp only
          refine destroyed_concl2 (by simp [d_stage]) (by simp [d_is_local])
            ?_
          intro _
          exact hInv.2 hloc
        | cons sa rest =>
          try dsimp only
          refine final_step_concl2 (by simp [us_stage])
            (by simp [us_is_local]) ?_
          rcases hcond with ⟨h1, h2⟩ | ⟨h1, h2⟩
          · rw [hloc] at h1
            exact absurd h1 (by decide)
          · exact Or.inr ⟨rfl, h2⟩

/-- Conclusions of a local-role branch that writes a reply and then sets
the stage to `t` on a handler with no remote socket. -/
lemma set_stage_concl {w1 : World} {l : Bool} {s t : Nat}
    (hrm : w1.handler.remote_sock = none)
    (hloc1 : w1.handler.is_local = l)
    (hltrue : l = true)
    (hedge : StageEdge l s t) :
    Inv9 { w1 with handler := { w1.handler with stage := t } } ∧
    ({ w1 with handler := { w1.handler with stage := t } } :
      World).handler.is_local = l ∧
    (({ w1 with handler := { w1.handler with stage := t } } :
        World).handler.stage = s ∨
      StageEdge l s ({ w1 with handler := { w1.handler with stage := t } } :
        World).handler.stage) := by
  refine ⟨⟨fun hne => absurd hrm hne, fun hl => ?_⟩, hloc1, Or.inr hedge⟩
  exfalso
  have hlf : l = false := by rw [← hloc1]; exact hl
  rw [hltrue] at hlf
  exact absurd hlf (by decide)

lemma hello_branch_step (ext : Ext) (w : World) (env : Env) (d : List Nat)
    (hInv : Inv9 w)
    (hcond : (w.handler.is_local = true ∧ w.handler.stage = STAGE_HELLO) ∨
      (w.handler.is_local = false ∧ w.handler.stage = STAGE_INIT)) :
    Inv9 (hello_branch ext w env d) ∧
    (hello_branch ext w env d).handler.is_local = w.handler.is_local ∧
    ((hello_branch ext w env d).handler.stage = w.handler.stage ∨
      StageEdge w.handler.is_local w.handler.stage
        (hello_branch ext w env d).handler.stage) := by
  unfold hello_branch
  by_cases hloc : w.handler.is_local = true
  · rw [if_pos hloc]
    cases hc : d[1]? with
    | none =>
      exact ⟨inv9_of_frame hInv (d_stage _) (d_is_local _)
        (Or.inr (d_socks _).2), d_is_local _, Or.inl (d_stage _)⟩
    | some cmd =>
      try dsimp only
      have hstageH : w.handler.stage = STAGE_HELLO := by
        rcases hcond with ⟨_, h2⟩ | ⟨h1, _⟩
        · exact h2
        · rw [hloc] at h1
          exact absurd h1 (by decide)
      have hremnone : w.handler.remote_sock = none := by
        by_contra hne
        rcases hInv.1 hne with h | h <;> rw [hstageH] at h <;>
          simp [STAGE_HELLO, STAGE_REPLY, STAGE_STREAM] at h
      by_cases hudp : cmd = CMD_UDP_ASSOCIATE
      · rw [if_pos hudp]
        try dsimp only
        have hw1rm : (write_to_sock w
            ((if env.isV6 then [5, 0, 0, 4] else [5, 0, 0, 1]) ++
              env.boundAddr ++
                [env.boundPort / 256 % 256, env.boundPort % 256])
            w.handler.local_sock env.sendR).handler.remote_sock = none := by
          rcases ws_remote_opt w
            ((if env.isV6 then [5, 0, 0, 4] else [5, 0, 0, 1]) ++
              env.boundAddr ++
                [env.boundPort / 256 % 256, env.boundPort % 256])
            w.handler.local_sock env.sendR with h | h
          · rw [h]; exact hremnone
          · exact h
        exact set_stage_concl hw1rm (ws_is_local _ _ _ _) hloc
          (Or.inl ⟨hloc, Or.inr (Or.inl
            ⟨by simpa [STAGE_HELLO] using hstageH, rfl⟩)⟩)
      · rw [if_neg hudp]
        by_cases hconn : cmd = CMD_CONNECT
        · rw [if_pos hconn]
          exact connect_part_step ext w env (d.drop 3) hInv hcond
        · rw [if_neg hconn]
          exact ⟨inv9_of_frame hInv (d_stage _) (d_is_local _)
            (Or.inr (d_socks _).2), d_is_local _, Or.inl (d_stage _)⟩
  · rw [if_neg hloc]
    exact connect_part_step ext w env d hInv hcond

lemma olr_step (ext : Ext) (w : World) (env : Env) (hInv : Inv9 w) :
    Inv9 (on_local_read ext w env) ∧
    (on_local_read ext w env).handler.is_local = w.handler.is_local ∧
    ((on_local_read ext w env).handler.stage = w.handler.stage ∨
      StageEdge w.handler.is_local w.handler.stage
        (on_local_read ext w env).handler.stage) := by
  unfold on_local_read
  try dsimp only
  by_cases hLn : w.handler.local_sock = none
  · rw [if_pos hLn]
    exact ⟨inv9_of_frame hInv rfl rfl (Or.inl rfl), rfl, Or.inl rfl⟩
  · rw [if_neg hLn]
    cases hr : env.recv with
    | benign =>
      exact ⟨inv9_of_frame hInv rfl rfl (Or.inl rfl), rfl, Or.inl rfl⟩
    | bytes d0 =>
      try dsimp only
      by_cases h0 : d0 = []
      · rw [if_pos h0]
        exact ⟨inv9_of_frame hInv (d_stage _) (d_is_local _)
          (Or.inr (d_socks _).2), d_is_local _, Or.inl (d_stage _)⟩
      · rw [if_neg h0]
        try dsimp only
        by_cases hde : w.handler.is_local = false ∧
            (if w.handler.is_local = true then d0 else ext.decrypt d0) = []
        · rw [if_pos hde]
          exact ⟨inv9_of_frame hInv rfl rfl (Or.inl rfl), rfl, Or.inl rfl⟩
        · rw [if_neg hde]
          by_cases hs5 : w.handler.stage = STAGE_STREAM
          · rw [if_pos hs5]
            exact ⟨inv9_of_frame hInv (ws_stage _ _ _ _)
              (ws_is_local _ _ _ _) (ws_remote_opt _ _ _ _),
              ws_is_local _ _ _ _, Or.inl (ws_stage _ _ _ _)⟩
          · rw [if_neg hs5]
            by_cases hini : w.handler.is_local = true ∧
                w.handler.stage = STAGE_INIT
            · rw [if_pos hini]
              try dsimp only
              have hremnone : w.handler.remote_sock = none := by
                by_contra hne
                rcases hInv.1 hne with h | h <;> rw [hini.2] at h <;>
                  simp [STAGE_INIT, STAGE_REPLY, STAGE_STREAM] at h
              have hw1rm : (write_to_sock
                  { w with server :=
                      update_activity w.server w.handler.hid env.nowI }
                  [5, 0] w.handler.local_sock
                  env.sendR).handler.remote_sock = none := by
                rcases ws_remote_opt
                  { w with server :=
                      update_activity w.server w.handler.hid env.nowI }
                  [5, 0] w.handler.local_sock env.sendR with h | h
                · rw [h]; exact hremnone
                · exact h
              exact set_stage_concl hw1rm (ws_is_local _ _ _ _) hini.1
                (Or.inl ⟨hini.1, Or.inl
                  ⟨by simpa [STAGE_INIT] using hini.2, rfl⟩⟩)
            · rw [if_neg hini]
              by_cases hrep : w.handler.stage = STAGE_REPLY
              · rw [if_pos hrep]
                exact ⟨inv9_of_frame hInv rfl rfl (Or.inl rfl), rfl,
                  Or.inl rfl⟩
              · rw [if_neg hrep]
                by_cases hhel : (w.handler.is_local = true ∧
                    w.handler.stage = STAGE_HELLO) ∨
                    (w.handler.is_local = false ∧
                      w.handler.stage = STAGE_INIT)
                · rw [if_pos hhel]
                  exact hello_branch_step ext
                    { w with server :=
                        update_activity w.server w.handler.hid env.nowI }
                    env _ hInv hhel
                · rw [if_neg hhel]
                  exact ⟨inv9_of_frame hInv rfl rfl (Or.inl rfl), rfl,
                    Or.inl rfl⟩

lemma stageEdge45 (l : Bool) : StageEdge l 4 5 := by
  cases l
  · exact Or.inr ⟨rfl, Or.inr ⟨rfl, rfl⟩⟩
  · exact Or.inl ⟨rfl, Or.inr (Or.inr (Or.inr ⟨rfl, rfl⟩))⟩

lemma handle_event_step (ext : Ext) (w : World) (sockFd mask : Nat)
    (env : Env) (hInv : Inv9 w) :
    Inv9 (handle_event ext w sockFd mask env) ∧
    (handle_event ext w sockFd mask env).handler.is_local =
      w.handler.is_local ∧
    ((handle_event ext w sockFd mask env).handler.stage =
        w.handler.stage ∨
      StageEdge w.handler.is_local w.handler.stage
        (handle_event ext w sockFd mask env).handler.stage) := by
  unfold handle_event
  by_cases hRm : some sockFd = w.handler.remote_sock
  · rw [if_pos hRm]
    try dsimp only
    have hst45 : w.handler.stage = STAGE_REPLY ∨
        w.handler.stage = STAGE_STREAM :=
      hInv.1 (by rw [← hRm]; simp)
    generalize hw1 : (if mask &&& POLL_IN ≠ 0 then on_remote_read ext w env
      else w) = w1
    have hf1 : Inv9 w1 ∧ w1.handler.stage = w.handler.stage ∧
        w1.handler.is_local = w.handler.is_local := by
      rw [← hw1]
      by_cases hIn : mask &&& POLL_IN ≠ 0
      · rw [if_pos hIn]
        obtain ⟨hs, hl, hr⟩ := on_remote_read_step ext w env
        exact ⟨inv9_of_frame hInv hs hl hr, hs, hl⟩
      · rw [if_neg hIn]
        exact ⟨hInv, rfl, rfl⟩
    generalize hw2 : (if mask &&& POLL_OUT ≠ 0 then on_remote_write w1 env
      else w1) = w2
    have hf2 : Inv9 w2 ∧ w2.handler.is_local = w.handler.is_local ∧
        (w2.handler.stage = w.handler.stage ∨
          w2.handler.stage = STAGE_STREAM) := by
      rw [← hw2]
      by_cases hOut : mask &&& POLL_OUT ≠ 0
      · rw [if_pos hOut]
        obtain ⟨hs, hl, hr⟩ := on_remote_write_step w1 env
        exact ⟨inv9_final (Or.inr hs), by rw [hl, hf1.2.2], Or.inr hs⟩
      · rw [if_neg hOut]
        exact ⟨hf1.1, hf1.2.2, Or.inl hf1.2.1⟩
    have hstep : ∀ w3 : World, w3.handler.stage = w2.handler.stage →
        w3.handler.stage = w.handler.stage ∨
          StageEdge w.handler.is_local w.handler.stage
            w3.handler.stage := by
      intro w3 hs3
      rcases hf2.2.2 with h | h
      · exact Or.inl (by rw [hs3, h])
      · rcases hst45 with h4 | h5
        · refine Or.inr ?_
          rw [hs3, h, h4]
          exact stageEdge45 _
        · exact Or.inl (by rw [hs3, h, h5])
    by_cases hErr : mask &&& POLL_ERR ≠ 0
    · rw [if_pos hErr]
      unfold on_remote_error
      exact ⟨inv9_of_frame hf2.1 (d_stage _) (d_is_local _)
        (Or.inr (d_socks _).2),
        by rw [d_is_local, hf2.2.1],
        hstep _ (d_stage _)⟩
    · rw [if_neg hErr]
      exact ⟨hf2.1, hf2.2.1, hstep _ rfl⟩
  · rw [if_neg hRm]
    by_cases hLm : some sockFd = w.handler.local_sock
    · rw [if_pos hLm]
      try dsimp only
      generalize hw1 : (if mask &&& POLL_IN ≠ 0 then on_local_read ext w env
        else w) = w1
      have hf1 : Inv9 w1 ∧ w1.handler.is_local = w.handler.is_local ∧
          (w1.handler.stage = w.handler.stage ∨
            StageEdge w.handler.is_local w.handler.stage
              w1.handler.stage) := by
        rw [← hw1]
        by_cases hIn : mask &&& POLL_IN ≠ 0
        · rw [if_pos hIn]
          exact olr_step ext w env hInv
        · rw [if_neg hIn]
          exact ⟨hInv, rfl, Or.inl rfl⟩
      generalize hw2 : (if mask &&& POLL_OUT ≠ 0 then on_local_write w1 env
        else w1) = w2
      have hf2 : Inv9 w2 ∧ w2.handler.is_local = w.handler.is_local ∧
          (w2.handler.stage = w.handler.stage ∨
            StageEdge w.handler.is_local w.handler.stage
              w2.handler.stage) := by
        rw [← hw2]
        by_cases hOut : mask &&& POLL_OUT ≠ 0
        · rw [if_pos hOut]
          obtain ⟨hs, hl, hr⟩ := on_local_write_step w1 env
          refine ⟨inv9_of_frame hf1.1 hs hl hr, by rw [hl, hf1.2.1], ?_⟩
          rw [hs]
          exact hf1.2.2
        · rw [if_neg hOut]
          exact hf1
      by_cases hErr : mask &&& POLL_ERR ≠ 0
      · rw [if_pos hErr]
        unfold on_local_error
        refine ⟨inv9_of_frame hf2.1 (d_stage _) (d_is_local _)
          (Or.inr (d_socks _).2),
          by rw [d_is_local, hf2.2.1], ?_⟩
        rw [d_stage]
        exact hf2.2.2
      · rw [if_neg hErr]
        exact hf2
    · rw [if_neg hLm]
      exact ⟨hInv, rfl, Or.inl rfl⟩

/-- The maximal stage chains a handler can still traverse from stage `s`
in role `l`. -/
def chainsFrom : Bool → Nat → List (List Nat)
  | true, s =>
    if s = 0 then [[0, 1, 4, 5], [0, 1, 2]]
    else if s = 1 then [[1, 4, 5], [1, 2]]
    else if s = 4 then [[4, 5]]
    else [[s]]
  | false, s =>
    if s = 0 then [[0, 4, 5]]
    else if s = 4 then [[4, 5]]
    else [[s]]

lemma chainsFrom_self (l : Bool) (s : Nat) :
    ∃ t, (s :: t) ∈ chainsFrom l s := by
  cases l
  · simp only [chainsFrom]
    by_cases h0 : s = 0
    · subst h0
      exact ⟨[4, 5], by simp⟩
    · rw [if_neg h0]
      by_cases h4 : s = 4
      · subst h4
        exact ⟨[5], by simp⟩
      · rw [if_neg h4]
        exact ⟨[], by simp⟩
  · simp only [chainsFrom]
    by_cases h0 : s = 0
    · subst h0
      exact ⟨[1, 4, 5], by simp⟩
    · rw [if_neg h0]
      by_cases h1 : s = 1
      · subst h1
        exact ⟨[4, 5], by simp⟩
      · rw [if_neg h1]
        by_cases h4 : s = 4
        · subst h4
          exact ⟨[5], by simp⟩
        · rw [if_neg h4]
          exact ⟨[], by simp⟩

lemma chainsFrom_cons {l : Bool} {s s' : Nat} (he : StageEdge l s s') :
    ∀ c ∈ chainsFrom l s', (s :: c) ∈ chainsFrom l s := by
  rcases he with ⟨hl, h⟩ | ⟨hl, h⟩
  · subst hl
    rcases h with ⟨h1, h2⟩ | ⟨h1, h2⟩ | ⟨h1, h2⟩ | ⟨h1, h2⟩ <;>
      subst h1 <;> subst h2 <;> decide
  · subst hl
    rcases h with ⟨h1, h2⟩ | ⟨h1, h2⟩ <;> subst h1 <;> subst h2 <;> decide

lemma stageEdge_ne {l : Bool} {s s' : Nat} (he : StageEdge l s s') :
    s ≠ s' := by
  rcases he with ⟨_, h⟩ | ⟨_, h⟩
  · rcases h with ⟨h1, h2⟩ | ⟨h1, h2⟩ | ⟨h1, h2⟩ | ⟨h1, h2⟩ <;> omega
  · rcases h with ⟨h1, h2⟩ | ⟨h1, h2⟩ <;> omega

lemma stageTrace_shape (ext : Ext) (w : World) (es : List Event) :
    ∃ rest, stageTrace ext w es = w.handler.stage :: rest := by
  cases es <;> exact ⟨_, rfl⟩

lemma dedupRun_cons₂ (a b : Nat) (rest : List Nat) :
    dedupRun (a :: b :: rest) =
      if a = b then dedupRun (b :: rest) else a :: dedupRun (b :: rest) :=
  rfl

lemma trace_chain (ext : Ext) : ∀ (evs : List Event) (w : World), Inv9 w →
    ∃ c ∈ chainsFrom w.handler.is_local w.handler.stage,
      dedupRun (stageTrace ext w evs) <+: c := by
  intro evs
  induction evs with
  | nil =>
    intro w hInv
    obtain ⟨t, ht⟩ := chainsFrom_self w.handler.is_local w.handler.stage
    exact ⟨w.handler.stage :: t, ht, ⟨t, rfl⟩⟩
  | cons e es ih =>
    intro w hInv
    obtain ⟨hInv', hloc', hstep⟩ :=
      handle_event_step ext w e.sockFd e.mask e.env hInv
    obtain ⟨c', hc', hpre⟩ := ih (handle_event ext w e.sockFd e.mask e.env)
      hInv'
    obtain ⟨rest', hrest⟩ := stageTrace_shape ext
      (handle_event ext w e.sockFd e.mask e.env) es
    have htr : stageTrace ext w (e :: es) =
        w.handler.stage ::
          stageTrace ext (handle_event ext w e.sockFd e.mask e.env) es := rfl
    rw [hloc'] at hc'
    rcases hstep with hsame | hedge
    · refine ⟨c', by rw [hsame] at hc'; exact hc', ?_⟩
      rw [htr, hrest, hsame, dedupRun_cons₂, if_pos rfl]
      rw [hrest, hsame] at hpre
      exact hpre
    · have hne : w.handler.stage ≠
          (handle_event ext w e.sockFd e.mask e.env).handler.stage :=
        stageEdge_ne hedge
      refine ⟨w.handler.stage :: c', chainsFrom_cons hedge c' hc', ?_⟩
      rw [htr, hrest, dedupRun_cons₂, if_neg hne]
      rw [hrest] at hpre
      obtain ⟨t, ht⟩ := hpre
      exact ⟨t, by rw [List.cons_append, ht]⟩

/-- C9: for every sequence of dispatched events on a freshly constructed
handler, the sequence of distinct stage values it occupies is a prefix of
`INIT, HELLO, REPLY, STREAM` or of `INIT, HELLO, UDP_ASSOC` at the local
role, and a prefix of `INIT, REPLY, STREAM` at the remote role; in
particular the stage never decreases. -/
theorem claim_C9_stage_monotonic (ext : Ext) (w0 : World) (evs : List Event)
    (hstage : w0.handler.stage = STAGE_INIT)
    (hremote : w0.handler.remote_sock = none) :
    (w0.handler.is_local = true →
      dedupRun (stageTrace ext w0 evs) <+: [STAGE_INIT, STAGE_HELLO,
        STAGE_REPLY, STAGE_STREAM] ∨
      dedupRun (stageTrace ext w0 evs) <+: [STAGE_INIT, STAGE_HELLO,
        STAGE_UDP_ASSOC]) ∧
    (w0.handler.is_local = false →
      dedupRun (stageTrace ext w0 evs) <+: [STAGE_INIT, STAGE_REPLY,
        STAGE_STREAM]) := by
  have hInv : Inv9 w0 :=
    ⟨fun hne => absurd hremote hne, fun _ => Or.inl hstage⟩
  obtain ⟨c, hc, hpre⟩ := trace_chain ext evs w0 hInv
  rw [hstage] at hc
  constructor
  · intro hl
    rw [hl] at hc
    have hcc : c = [0, 1, 4, 5] ∨ c = [0, 1, 2] := by
      simpa [chainsFrom, STAGE_INIT] using hc
    rcases hcc with rfl | rfl
    · exact Or.inl hpre
    · exact Or.inr hpre
  · intro hl
    rw [hl] at hc
    have hcc : c = [0, 4, 5] := by
      simpa [chainsFrom, STAGE_INIT] using hc
    rw [hcc] at hpre
    exact hpre

/-- Concrete initial world for the C9 witness. -/
def worldInit₉ : World :=
  { world₀ with
    handler := { handler₀ with stage := STAGE_INIT, remote_sock := none } }

/-- Witness for C9 at a concrete fresh handler. -/
theorem claim_C9_witness :
    dedupRun (stageTrace ext₇ worldInit₉ []) <+: [STAGE_INIT, STAGE_HELLO,
      STAGE_REPLY, STAGE_STREAM] ∨
    dedupRun (stageTrace ext₇ worldInit₉ []) <+: [STAGE_INIT, STAGE_HELLO,
      STAGE_UDP_ASSOC] :=
  (claim_C9_stage_monotonic ext₇ worldInit₉ [] rfl rfl).1 rfl

end Tcprelay
